import Mathlib

/-!
Verification of the wire-to-frame pipeline of the `rust_components` repository:
the HWORD binary codec (`shared/src/hword.rs`), the count-based frame
synchronization state machine (`framegrabber/src/frame_sync.rs`), the frame
decoder (`shared/src/frame.rs`, `shared/src/coordinates.rs`) and the synthetic
frame source (`framegrabber/src/capture.rs`).

Machine integers are embedded as `Nat` (with explicit masking where the source
masks); byte slices are `List Nat` whose elements are bytes (`< 256`); fallible
functions return `Except`/`Option`; `f64` coordinate values are embedded as `ℚ`
(every floating-point operation the decoder performs on the coordinate fields —
converting an `i32` of magnitude below `2^22` to `f64` and dividing by the
power of two `1024.0` — is exact in IEEE-754 double precision, so `ℚ` agrees
with the `f64` computation on the nose).
-/

set_option maxRecDepth 20000

namespace RustComponents

/-! ### `shared/src/hword.rs` — the 96-bit HWORD codec -/

/-- Rust `ControlBits` enum of `hword.rs` (3-bit control code tag set). -/
inductive ControlBits where
  | Reserved0
  | Reserved1
  | FirstHeader
  | SubsequentHeader
  | FirstPixel
  | SubsequentPixel
  | Reserved6
  | Idle
  deriving DecidableEq, Repr

namespace ControlBits

/-- The `#[repr(u8)]` discriminant of each variant (the `as u8` / `as u128` cast). -/
def toNat : ControlBits → Nat
  | .Reserved0 => 0
  | .Reserved1 => 1
  | .FirstHeader => 2
  | .SubsequentHeader => 3
  | .FirstPixel => 4
  | .SubsequentPixel => 5
  | .Reserved6 => 6
  | .Idle => 7

/-- Rust `ControlBits::from_u8`: parse control bits from a byte, masking to 3 bits. -/
def fromU8 (value : Nat) : Option ControlBits :=
  match value &&& 0b111 with
  | 0b000 => some .Reserved0
  | 0b001 => some .Reserved1
  | 0b010 => some .FirstHeader
  | 0b011 => some .SubsequentHeader
  | 0b100 => some .FirstPixel
  | 0b101 => some .SubsequentPixel
  | 0b110 => some .Reserved6
  | 0b111 => some .Idle
  | _ => none

/-- Rust `ControlBits::is_header`: `FirstHeader` or `SubsequentHeader`. -/
def is_header : ControlBits → Bool
  | .FirstHeader => true
  | .SubsequentHeader => true
  | _ => false

/-- Rust `ControlBits::is_pixel`: `FirstPixel` or `SubsequentPixel`. -/
def is_pixel : ControlBits → Bool
  | .FirstPixel => true
  | .SubsequentPixel => true
  | _ => false

/-- Rust `ControlBits::is_frame_start`: `FirstHeader` only. -/
def is_frame_start : ControlBits → Bool
  | .FirstHeader => true
  | _ => false

/-- Rust `ControlBits::is_idle`: `Idle` only. -/
def is_idle : ControlBits → Bool
  | .Idle => true
  | _ => false

end ControlBits

/-- Rust `HWordError` enum of `hword.rs`. -/
inductive HWordError where
  | InvalidLength (got : Nat)
  | InvalidControlBits (raw : Nat)
  | ParityCheckFailed
  | InvalidDataField
  deriving DecidableEq, Repr

/-- The 96-bit word reassembled from 12 big-endian bytes, as in the byte loop
`word_96bit |= (byte as u128) << (88 - i * 8)` of `HWord::from_bytes`.
Defined on 12-byte lists (the source operates on `[u8; 12]`); other lengths
are outside the source function's domain and map to 0. -/
def word96 : List Nat → Nat
  | [b0, b1, b2, b3, b4, b5, b6, b7, b8, b9, b10, b11] =>
      b0 <<< 88 ||| b1 <<< 80 ||| b2 <<< 72 ||| b3 <<< 64 ||| b4 <<< 56 |||
      b5 <<< 48 ||| b6 <<< 40 ||| b7 <<< 32 ||| b8 <<< 24 ||| b9 <<< 16 |||
      b10 <<< 8 ||| b11 <<< 0
  | _ => 0

/-- The byte loop `bytes[i] = ((word_96bit >> (88 - i * 8)) & 0xFF) as u8`
shared by `HWord::to_bytes` and the synthetic generator. -/
def bytesOfWord96 (w : Nat) : List Nat :=
  (List.range 12).map (fun j => (w >>> (88 - j * 8)) &&& 0xFF)

/-- Rust `HWord` struct of `hword.rs`: control bits, parity flag, the low 88 bits of
the 92-bit data field as 11 little-endian bytes, and the remaining top 4 bits. -/
structure HWord where
  control_bits : ControlBits
  parity : Bool
  data : List Nat
  remaining_bits : Nat
  deriving DecidableEq, Repr

namespace HWord

/-- Rust `HWord::from_bytes`: read the control code from the top 3 bits of byte 0,
reassemble the big-endian 96-bit word, split off parity bit 92 and the 92-bit
data field (packed as 11 bytes plus 4 remaining bits). -/
def from_bytes (bytes : List Nat) : Except HWordError HWord :=
  let raw_control_bits := (bytes.getD 0 0 >>> 5) &&& 0x7
  match ControlBits.fromU8 raw_control_bits with
  | none => .error (.InvalidControlBits raw_control_bits)
  | some control_bits =>
    let word_96bit := word96 bytes
    let parity := ((word_96bit >>> 92) &&& 0x1) != 0
    let data_92bit := word_96bit &&& ((1 <<< 92) - 1)
    .ok { control_bits := control_bits
          parity := parity
          data := (List.range 11).map (fun i => (data_92bit >>> (i * 8)) &&& 0xFF)
          remaining_bits := (data_92bit >>> 88) &&& 0xF }

/-- The 92-bit data field reassembled from the 11 stored bytes and the 4
remaining bits (the shared loop of `to_bytes` and `data_as_u128`). -/
def data92OfParts (data : List Nat) (remaining_bits : Nat) : Nat :=
  ((List.range 11).foldl (fun acc i => acc ||| (data.getD i 0) <<< (i * 8)) 0) |||
    remaining_bits <<< 88

/-- Rust `HWord::to_bytes`: repack control, parity and the 92-bit data field into
the big-endian 96-bit word and emit its 12 bytes. -/
def to_bytes (h : HWord) : List Nat :=
  let data_92bit := data92OfParts h.data h.remaining_bits
  let control_bits := h.control_bits.toNat <<< 93
  let parity_bit := if h.parity then 1 <<< 92 else 0
  let word_96bit := control_bits ||| parity_bit ||| data_92bit
  bytesOfWord96 word_96bit

/-- Rust `HWord::data_as_u128`: the 92-bit data field zero-extended. -/
def data_as_u128 (h : HWord) : Nat :=
  data92OfParts h.data h.remaining_bits

/-- Rust `HWord::verify_parity`: reassemble the full 96-bit word from `to_bytes`
and require an odd count of one bits.  `count_ones` on the `u128` word is
embedded as the number of set bits among bit positions `0..128`. -/
def verify_parity (h : HWord) : Bool :=
  let word_96bit := word96 (to_bytes h)
  let ones_count := ((List.range 128).filter (fun i => word_96bit.testBit i)).length
  ones_count % 2 == 1

end HWord

/-! ### `shared/src/lib.rs` — protocol constants -/

/-- Rust `protocol::HWORD_SIZE_BYTES`. -/
def HWORD_SIZE_BYTES : Nat := 12

/-- Rust `protocol::HEADER_HWORDS_PER_FRAME`. -/
def HEADER_HWORDS_PER_FRAME : Nat := 110

/-! ### `framegrabber/src/frame_sync.rs` — the sync engine -/

/-- Rust `IDLE_HWORD_PATTERN`: the fixed 12-byte Idle anchor. -/
def IDLE_HWORD_PATTERN : List Nat :=
  [0xFD, 0x3C, 0x4B, 0x5A, 0x69, 0x78, 0x87, 0x96, 0xA5, 0xB4, 0xC3, 0xB2]

/-- Rust `FrameSyncState` enum. -/
inductive FrameSyncState where
  | WaitingForSync
  | WaitingForFrame
  | CollectingHeader (count : Nat) (last_index : Option Nat)
  | CollectingPixels (header_count : Nat) (pixel_count : Nat) (expected_pixels : Nat)
  | FrameComplete
  deriving DecidableEq, Repr

/-- Rust `FrameMode` enum. -/
inductive FrameMode where
  | OnePointScan
  | FivePointScan
  | Imaging (expected_pixels : Nat)
  | Unknown
  deriving DecidableEq, Repr

namespace FrameMode

/-- Rust `FrameMode::expected_pixel_count`. -/
def expected_pixel_count : FrameMode → Nat
  | .OnePointScan => 1
  | .FivePointScan => 5
  | .Imaging expected_pixels => expected_pixels
  | .Unknown => 1

end FrameMode

/-- Rust `FrameSyncEngine` struct: state machine variables and statistics. -/
structure FrameSyncEngine where
  state : FrameSyncState
  frame_buffer : List Nat
  current_mode : FrameMode
  frames_completed : Nat
  sync_errors : Nat
  header_index_errors : Nat
  deriving DecidableEq, Repr

namespace FrameSyncEngine

/-- Rust `FrameSyncEngine::new`. -/
def new : FrameSyncEngine :=
  { state := .WaitingForSync
    frame_buffer := []
    current_mode := .Unknown
    frames_completed := 0
    sync_errors := 0
    header_index_errors := 0 }

/-- Rust `FrameSyncEngine::is_idle_hword`: length 12, control bits `111`, and the
exact Idle byte pattern. -/
def is_idle_hword (chunk : List Nat) : Bool :=
  if chunk.length ≠ 12 then false
  else if (chunk.getD 0 0 >>> 5) &&& 0x07 ≠ 0b111 then false
  else chunk == IDLE_HWORD_PATTERN

/-- Rust `FrameSyncEngine::extract_header_index`: bits 87:84 of the data field of a
header HWORD. -/
def extract_header_index (hword : HWord) : Option Nat :=
  if ¬hword.control_bits.is_header then none
  else some ((hword.data_as_u128 >>> 84) &&& 0x0F)

/-- Rust `FrameSyncEngine::extract_num_pixels`: NUM_PIXELS_RW is register 2 of the
`FirstHeader`, at bits 47:32 of the data field; 0 defaults to 1. -/
def extract_num_pixels (first_header_hword : HWord) : Option Nat :=
  if ¬first_header_hword.control_bits.is_frame_start then none
  else
    let num_pixels := (first_header_hword.data_as_u128 >>> 32) &&& 0xFFFF
    if num_pixels > 0 then some num_pixels else some 1

/-- The `WaitingForFrame` arm of `process_hword` (also reached from
`WaitingForSync` on a `FirstHeader`, which re-processes the HWORD there). -/
def waitingForFrameStep (e : FrameSyncEngine) (chunk : List Nat) (hword : HWord) :
    FrameSyncEngine × Option (List Nat) :=
  if hword.control_bits.is_frame_start then
    let frame_buffer := chunk
    let expected_pixels := (extract_num_pixels hword).getD 1
    let current_mode : FrameMode :=
      if expected_pixels = 1 then .OnePointScan
      else if expected_pixels = 5 then .FivePointScan
      else .Imaging expected_pixels
    ({ e with frame_buffer := frame_buffer
              current_mode := current_mode
              state := .CollectingHeader 1 (some 0) }, none)
  else (e, none)

/-- Rust `FrameSyncEngine::process_hword`: process one 12-byte chunk; returns the
updated engine and `some frame_data` when a complete frame is emitted. -/
def process_hword (e : FrameSyncEngine) (chunk : List Nat) :
    FrameSyncEngine × Option (List Nat) :=
  match HWord.from_bytes chunk with
  | .error _ => ({ e with sync_errors := e.sync_errors + 1 }, none)
  | .ok hword =>
    match e.state with
    | .WaitingForSync =>
        if is_idle_hword chunk then
          ({ e with state := .WaitingForFrame }, none)
        else if hword.control_bits.is_frame_start then
          waitingForFrameStep { e with state := .WaitingForFrame } chunk hword
        else (e, none)
    | .WaitingForFrame => waitingForFrameStep e chunk hword
    | .CollectingHeader count last_index =>
        if hword.control_bits.is_header then
          match extract_header_index hword with
          | some index =>
            let header_index_errors :=
              match last_index with
              | some last =>
                  if index ≠ (last + 1) % 16 ∧ count < HEADER_HWORDS_PER_FRAME then
                    e.header_index_errors + 1
                  else e.header_index_errors
              | none => e.header_index_errors
            let frame_buffer := e.frame_buffer ++ chunk
            if count + 1 ≥ HEADER_HWORDS_PER_FRAME then
              ({ e with header_index_errors := header_index_errors
                        frame_buffer := frame_buffer
                        state := .CollectingPixels (count + 1) 0
                          e.current_mode.expected_pixel_count }, none)
            else
              ({ e with header_index_errors := header_index_errors
                        frame_buffer := frame_buffer
                        state := .CollectingHeader (count + 1) (some index) }, none)
          | none =>
            let frame_buffer := e.frame_buffer ++ chunk
            if count + 1 ≥ HEADER_HWORDS_PER_FRAME then
              ({ e with frame_buffer := frame_buffer
                        state := .CollectingPixels (count + 1) 0
                          e.current_mode.expected_pixel_count }, none)
            else
              ({ e with frame_buffer := frame_buffer
                        state := .CollectingHeader (count + 1) last_index }, none)
        else if hword.control_bits.is_pixel then
          ({ e with frame_buffer := e.frame_buffer ++ chunk
                    state := .CollectingPixels count 1
                      e.current_mode.expected_pixel_count }, none)
        else (e, none)
    | .CollectingPixels header_count pixel_count expected_pixels =>
        if hword.control_bits.is_pixel then
          let frame_buffer := e.frame_buffer ++ chunk
          if pixel_count + 1 ≥ expected_pixels then
            ({ e with frame_buffer := frame_buffer
                      frames_completed := e.frames_completed + 1
                      state := .WaitingForFrame }, some frame_buffer)
          else
            ({ e with frame_buffer := frame_buffer
                      state := .CollectingPixels header_count (pixel_count + 1)
                        expected_pixels }, none)
        else if hword.control_bits.is_frame_start then
          ({ e with sync_errors := e.sync_errors + 1
                    frame_buffer := chunk
                    state := .CollectingHeader 1 (some 0) }, none)
        else (e, none)
    | .FrameComplete => (e, none)

/-- Feed a list of 12-byte chunks to the engine one by one, collecting every
emitted frame blob in order. -/
def processAll (e : FrameSyncEngine) : List (List Nat) → FrameSyncEngine × List (List Nat)
  | [] => (e, [])
  | chunk :: rest =>
    let (e', out) := process_hword e chunk
    let (e'', outs) := processAll e' rest
    (e'', out.toList ++ outs)

end FrameSyncEngine

/-! ### `shared/src/coordinates.rs` — coordinate extraction -/

/-- Rust `FieldType` enum. -/
inductive FieldType where
  | X
  | Y
  | Z
  | Intensity
  | Gain
  | OverRange
  deriving DecidableEq, BEq, Repr

namespace FieldType

/-- Rust `FieldType::from_str` (case-insensitive; `over_range` and `overrange`
both accepted). -/
def fromStr (s : String) : Option FieldType :=
  match s.toLower with
  | "x" => some .X
  | "y" => some .Y
  | "z" => some .Z
  | "intensity" => some .Intensity
  | "gain" => some .Gain
  | "over_range" => some .OverRange
  | "overrange" => some .OverRange
  | _ => none

end FieldType

/-- Rust `FieldWhitelist` struct (the Rust `HashSet` is embedded as the list of its
members; only membership is ever queried). -/
structure FieldWhitelist where
  fields : List FieldType
  deriving Repr

namespace FieldWhitelist

/-- Rust `FieldWhitelist::new`: keep the recognized field names. -/
def new (field_names : List String) : FieldWhitelist :=
  { fields := field_names.filterMap FieldType.fromStr }

/-- Rust `FieldWhitelist::all`. -/
def all : FieldWhitelist :=
  { fields := [.X, .Y, .Z, .Intensity, .Gain, .OverRange] }

/-- Rust `FieldWhitelist::includes`. -/
def includes (w : FieldWhitelist) (field : FieldType) : Bool :=
  w.fields.contains field

end FieldWhitelist

/-- Rust `CoordinatePoint` struct: six optional fields.  The `f64` coordinates are
embedded as `ℚ` (exact here, see the header comment). -/
structure CoordinatePoint where
  x : Option ℚ
  y : Option ℚ
  z : Option ℚ
  intensity : Option Nat
  gain : Option Bool
  over_range : Option Bool
  deriving DecidableEq, Repr

/-- Rust `CoordinatePoint::new`. -/
def CoordinatePoint.new : CoordinatePoint :=
  { x := none, y := none, z := none, intensity := none, gain := none, over_range := none }

/-- Rust `CoordinateData` struct. -/
structure CoordinateData where
  points : List CoordinatePoint
  deriving DecidableEq, Repr

/-- Rust `COORDINATE_SCALE_FACTOR` (`1024.0`). -/
def COORDINATE_SCALE_FACTOR : ℚ := 1024

/-- Rust's `as i32` reinterpretation of a `u32` value. -/
def u32_as_i32 (n : Nat) : Int :=
  if n % 2 ^ 32 < 2 ^ 31 then (n % 2 ^ 32 : Int) else (n % 2 ^ 32 : Int) - 2 ^ 32

/-- Rust `extract_coordinates_from_hword`: decode one pixel HWORD.  X in data bits
23:0 (19-bit signed), Y in 47:24 (19-bit signed), Z in 71:48 (22-bit signed),
intensity in 87:72 masked to 12 bits, over-range bit 90, gain bit 91. -/
def extract_coordinates_from_hword (hword : HWord) (whitelist : FieldWhitelist) :
    Option CoordinatePoint :=
  if ¬hword.control_bits.is_pixel then none
  else
    let data := hword.data_as_u128
    let x : Option ℚ :=
      if whitelist.includes .X then
        let x_raw := data &&& 0x7FFFF
        let x_signed := u32_as_i32 (if x_raw &&& 0x40000 ≠ 0 then x_raw ||| 0xFFF80000 else x_raw)
        some ((x_signed : ℚ) / COORDINATE_SCALE_FACTOR)
      else none
    let y : Option ℚ :=
      if whitelist.includes .Y then
        let y_raw := (data >>> 24) &&& 0x7FFFF
        let y_signed := u32_as_i32 (if y_raw &&& 0x40000 ≠ 0 then y_raw ||| 0xFFF80000 else y_raw)
        some ((y_signed : ℚ) / COORDINATE_SCALE_FACTOR)
      else none
    let z : Option ℚ :=
      if whitelist.includes .Z then
        let z_raw := (data >>> 48) &&& 0x3FFFFF
        let z_signed := u32_as_i32 (if z_raw &&& 0x200000 ≠ 0 then z_raw ||| 0xFFC00000 else z_raw)
        some ((z_signed : ℚ) / COORDINATE_SCALE_FACTOR)
      else none
    let intensity : Option Nat :=
      if whitelist.includes .Intensity then some ((data >>> 72) &&& 0xFFF) else none
    let over_range : Option Bool :=
      if whitelist.includes .OverRange then some (((data >>> 90) &&& 0x1) ≠ 0) else none
    let gain : Option Bool :=
      if whitelist.includes .Gain then some (((data >>> 91) &&& 0x1) ≠ 0) else none
    some { x := x, y := y, z := z, intensity := intensity, gain := gain, over_range := over_range }

/-! ### `shared/src/error.rs` — error type -/

/-- Rust `SharedError` enum (payload strings and wrapped foreign errors kept where
the core paths construct them; `Io`/`Serde` payloads are irrelevant here). -/
inductive SharedError where
  | HWordErr (e : HWordError)
  | Io
  | Serde
  | InvalidFrame (msg : String)
  | InvalidCoordinates (msg : String)
  | InvalidFileFormat (msg : String)
  | Config (msg : String)
  | Generic (msg : String)
  deriving DecidableEq, Repr

/-! ### `shared/src/frame.rs` — frame decoder -/

/-- Rust `FrameHeader` struct. -/
structure FrameHeader where
  hwords : List HWord
  registers : List Nat
  deriving DecidableEq, Repr

namespace FrameHeader

/-- Rust `FrameHeader::new`. -/
def new : FrameHeader := { hwords := [], registers := [] }

/-- Rust `FrameHeader::add_hword`: only header HWORDs may be added. -/
def add_hword (fh : FrameHeader) (hword : HWord) : Except SharedError FrameHeader :=
  if ¬hword.control_bits.is_header then
    .error (.InvalidFrame "Attempted to add non-header HWORD to frame header")
  else .ok { fh with hwords := fh.hwords ++ [hword] }

/-- Rust `FrameHeader::extract_registers`: five 16-bit lanes from data bits 79:0 of
each header HWORD, in lane order. -/
def extract_registers (fh : FrameHeader) : Except SharedError FrameHeader :=
  .ok { fh with
        registers := fh.hwords.flatMap (fun hword =>
          (List.range 5).map (fun i => (hword.data_as_u128 >>> (i * 16)) &&& 0xFFFF)) }

end FrameHeader

/-- Rust `PixelData` struct. -/
structure PixelData where
  hwords : List HWord
  deriving DecidableEq, Repr

namespace PixelData

/-- Rust `PixelData::new`. -/
def new : PixelData := { hwords := [] }

/-- Rust `PixelData::add_hword`: only pixel HWORDs may be added. -/
def add_hword (pd : PixelData) (hword : HWord) : Except SharedError PixelData :=
  if ¬hword.control_bits.is_pixel then
    .error (.InvalidFrame "Attempted to add non-pixel HWORD to pixel data")
  else .ok { pd with hwords := pd.hwords ++ [hword] }

/-- The `for (i, hword) in enumerate` loop body of
`PixelData::extract_coordinates`: skip index `i` when `decimation > 1` and
`i % decimation != 0`, else decode and push. -/
def extractCoordinatesLoop (whitelist : FieldWhitelist) (decimation : Nat) :
    List HWord → Nat → List CoordinatePoint
  | [], _ => []
  | hword :: rest, i =>
    if decimation > 1 ∧ i % decimation ≠ 0 then
      extractCoordinatesLoop whitelist decimation rest (i + 1)
    else
      match extract_coordinates_from_hword hword whitelist with
      | some point => point :: extractCoordinatesLoop whitelist decimation rest (i + 1)
      | none => extractCoordinatesLoop whitelist decimation rest (i + 1)

/-- Rust `PixelData::extract_coordinates`. -/
def extract_coordinates (pd : PixelData) (whitelist : FieldWhitelist) (decimation : Nat) :
    CoordinateData :=
  { points := extractCoordinatesLoop whitelist decimation pd.hwords 0 }

end PixelData

/-- Rust `Frame` struct. -/
structure Frame where
  frame_id : Nat
  header : FrameHeader
  pixels : PixelData
  frame_type : String
  deriving DecidableEq, Repr

namespace Frame

/-- Rust `Frame::new`. -/
def new (frame_id : Nat) : Frame :=
  { frame_id := frame_id, header := FrameHeader.new, pixels := PixelData.new
    frame_type := "point_cloud" }

/-- Rust `data.chunks_exact(12)`: the consecutive complete 12-byte chunks. -/
def chunks12 (data : List Nat) : List (List Nat) :=
  if h : data.length < 12 then []
  else data.take 12 :: chunks12 (data.drop 12)
termination_by data.length
decreasing_by simp; omega

/-- The per-chunk body of the `Frame::from_bytes` loop: route the HWORD by its
control code into the header or pixel list, tracking the `in_header` flag. -/
def fromBytesStep (frame : Frame) (in_header : Bool) (hword : HWord) :
    Except SharedError (Frame × Bool) :=
  match hword.control_bits with
  | .FirstHeader => do
      let header ← frame.header.add_hword hword
      .ok ({ frame with header := header }, true)
  | .SubsequentHeader =>
      if in_header then do
        let header ← frame.header.add_hword hword
        .ok ({ frame with header := header }, in_header)
      else .ok (frame, in_header)
  | .FirstPixel => do
      let pixels ← frame.pixels.add_hword hword
      .ok ({ frame with pixels := pixels }, false)
  | .SubsequentPixel =>
      if ¬in_header then do
        let pixels ← frame.pixels.add_hword hword
        .ok ({ frame with pixels := pixels }, in_header)
      else .ok (frame, in_header)
  | _ => .ok (frame, in_header)

/-- The chunk loop of `Frame::from_bytes`. -/
def fromBytesLoop (frame : Frame) (in_header : Bool) :
    List (List Nat) → Except SharedError Frame
  | [] => .ok frame
  | chunk :: rest =>
    if chunk.length ≠ 12 then .error (.InvalidFileFormat "Invalid HWORD chunk size")
    else
      match HWord.from_bytes chunk with
      | .error e => .error (.HWordErr e)
      | .ok hword =>
        match fromBytesStep frame in_header hword with
        | .error e => .error e
        | .ok (frame', in_header') => fromBytesLoop frame' in_header' rest

/-- Rust `Frame::from_bytes`: require the byte length to be a multiple of 12, parse
each chunk, route by control code, then extract the header registers. -/
def from_bytes (frame_id : Nat) (data : List Nat) : Except SharedError Frame :=
  if data.length % HWORD_SIZE_BYTES ≠ 0 then
    .error (.InvalidFileFormat
      ("File size " ++ toString data.length ++ " is not a multiple of HWORD size (12 bytes)"))
  else
    match fromBytesLoop (Frame.new frame_id) false (chunks12 data) with
    | .error e => .error e
    | .ok frame =>
      match frame.header.extract_registers with
      | .error e => .error e
      | .ok header => .ok { frame with header := header }

/-- Rust `Frame::data`: decimation defaults to 1, whitelist defaults to all fields. -/
def data (f : Frame) (decimation : Option Nat) (field_whitelist : Option (List String)) :
    CoordinateData :=
  let decimation := decimation.getD 1
  let whitelist :=
    match field_whitelist with
    | some fields => FieldWhitelist.new fields
    | none => FieldWhitelist.all
  f.pixels.extract_coordinates whitelist decimation

end Frame

/-! ### `framegrabber/src/capture.rs` — synthetic source (header HWORDs and
pixel HWORD packing of `generate_synthetic_frame`) -/

/-- Rust `points_per_frame` of `generate_synthetic_frame`. -/
def SYNTHETIC_POINTS_PER_FRAME : Nat := 122000

/-- The `FirstHeader` HWORD bytes of `generate_synthetic_frame`: data carries
the frame number and the pixel count at bits 47:32; control `010`; no parity
bit is set by the source. -/
def synthFirstHeaderBytes (frame_number : Nat) : List Nat :=
  let first_header_data := frame_number ||| (SYNTHETIC_POINTS_PER_FRAME <<< 32)
  let first_header_word := (2 <<< 93) ||| first_header_data
  bytesOfWord96 first_header_word

/-- The `SubsequentHeader` HWORD bytes of `generate_synthetic_frame`: data 0,
control `011`; no parity bit is set by the source. -/
def synthSubsequentHeaderBytes : List Nat :=
  let subsequent_header_data := 0
  let subsequent_header_word := (3 <<< 93) ||| subsequent_header_data
  bytesOfWord96 subsequent_header_word

/-- The pixel HWORD bytes of `generate_synthetic_frame`, given the already
fixed-point-converted and masked coordinate values and the point index (the
floating-point synthesis of those values is irrelevant to parity): pack the
fields, compute odd parity over control and data, and emit big-endian bytes. -/
def synthPixelBytes (i x_fixed y_fixed z_fixed intensity : Nat) : List Nat :=
  let control_bits : Nat := if i = 0 then 4 else 5
  let data_92bit :=
    (x_fixed &&& 0x7FFFF) ||| ((y_fixed &&& 0x7FFFF) <<< 24) |||
    ((z_fixed &&& 0x3FFFFF) <<< 48) ||| ((intensity &&& 0xFFFF) <<< 72)
  let control_and_data := (control_bits <<< 93) ||| data_92bit
  let ones_count := ((List.range 128).filter (fun b => control_and_data.testBit b)).length
  let parity_bit : Nat := if ones_count % 2 = 0 then 1 else 0
  let word_96bit := (control_bits <<< 93) ||| (parity_bit <<< 92) ||| data_92bit
  bytesOfWord96 word_96bit

/-! ### Parse characterization: `HWord::from_bytes` is total and explicit -/

/-- The 3-bit control code of a raw chunk: top three bits of byte 0 (the
expression `(bytes[0] >> 5) & 0x7` shared by `from_bytes` and the sync
engine). -/
def chunkControl (c : List Nat) : Nat := (c.getD 0 0 >>> 5) &&& 0x7

/-- Total decoding of a 3-bit control value, agreeing with
`ControlBits::from_u8` wherever the latter returns `some` (it always does). -/
def ctrlOfNat (v : Nat) : ControlBits :=
  match v &&& 0b111 with
  | 0b000 => .Reserved0
  | 0b001 => .Reserved1
  | 0b010 => .FirstHeader
  | 0b011 => .SubsequentHeader
  | 0b100 => .FirstPixel
  | 0b101 => .SubsequentPixel
  | 0b110 => .Reserved6
  | _ => .Idle

/-- The `HWord` that `from_bytes` produces (it never fails: the control tag
set is total over 3 bits). -/
def parseHWord (bytes : List Nat) : HWord :=
  let word_96bit := word96 bytes
  let data_92bit := word_96bit &&& ((1 <<< 92) - 1)
  { control_bits := ctrlOfNat (chunkControl bytes)
    parity := ((word_96bit >>> 92) &&& 0x1) != 0
    data := (List.range 11).map (fun i => (data_92bit >>> (i * 8)) &&& 0xFF)
    remaining_bits := (data_92bit >>> 88) &&& 0xF }

/-- NUM_PIXELS_RW as the sync engine reads it: data-field bits 47:32. -/
def numPixelsRW (h : HWord) : Nat := (h.data_as_u128 >>> 32) &&& 0xFFFF

/-! ### Concrete chunk constructors (inputs for witnesses and examples) -/

/-- A `FirstHeader` chunk whose NUM_PIXELS_RW lane (data bits 47:32) is `N`. -/
def firstHeaderChunk (N : Nat) : List Nat := bytesOfWord96 ((2 <<< 93) ||| (N <<< 32))

/-- A `SubsequentHeader` chunk with zero data. -/
def subHeaderChunk : List Nat := bytesOfWord96 (3 <<< 93)

/-- A `FirstPixel` chunk with zero data. -/
def firstPixelChunk : List Nat := bytesOfWord96 (4 <<< 93)

/-- A `SubsequentPixel` chunk with zero data. -/
def subPixelChunk : List Nat := bytesOfWord96 (5 <<< 93)

/-- A synchronized idle engine used as a witness input. -/
def engineWaitingForFrame : FrameSyncEngine :=
  { FrameSyncEngine.new with state := .WaitingForFrame }

/-! ### Single-step characterizations of `process_hword` -/

/-- The frame mode assigned by the `WaitingForFrame` arm for a given expected
pixel count (the `let current_mode` of `waitingForFrameStep`). -/
def modeOfExpected (expected_pixels : Nat) : FrameMode :=
  if expected_pixels = 1 then .OnePointScan
  else if expected_pixels = 5 then .FivePointScan
  else .Imaging expected_pixels

/-- One repetition of the well-formed frame pattern: a `FirstHeader` whose
NUM_PIXELS_RW lane is `N`, 109 `SubsequentHeader`s, one `FirstPixel` and
`N - 1` `SubsequentPixel`s. -/
def IsCycle (N : Nat) (cyc : List (List Nat)) : Prop :=
  ∃ fh hdrs fp pxs, cyc = fh :: (hdrs ++ fp :: pxs) ∧
    chunkControl fh = 2 ∧ numPixelsRW (parseHWord fh) = N ∧
    hdrs.length = 109 ∧ (∀ h ∈ hdrs, chunkControl h = 3) ∧
    chunkControl fp = 4 ∧
    pxs.length = N - 1 ∧ (∀ p ∈ pxs, chunkControl p = 5)

/-! ### C3 — every emitted blob starts with a `FirstHeader` HWORD -/

/-- The states in which the engine is accumulating a frame buffer. -/
def CollectingState : FrameSyncState → Prop
  | .CollectingHeader _ _ => True
  | .CollectingPixels _ _ _ => True
  | _ => False

/-- Invariant: while collecting, the buffer holds at least one HWORD and its
first HWORD has control code `FirstHeader`. -/
def BufInv (e : FrameSyncEngine) : Prop :=
  CollectingState e.state → 12 ≤ e.frame_buffer.length ∧ chunkControl e.frame_buffer = 2

/-- A concrete one-pixel cycle used as the witness input for C1. -/
def oneCycleN1 : List (List Nat) :=
  firstHeaderChunk 1 :: (List.replicate 109 subHeaderChunk ++ firstPixelChunk :: [])

/-! ### C2 — the S3 truncated-frame scenario -/

/-- The S3 input stream: `FirstHeader(N=5)`, 50 `SubsequentHeader`,
`FirstHeader(N=1)`, 109 `SubsequentHeader`, `FirstPixel`. -/
def s3Stream : List (List Nat) :=
  firstHeaderChunk 5 :: (List.replicate 50 subHeaderChunk ++
    firstHeaderChunk 1 :: (List.replicate 109 subHeaderChunk ++ [firstPixelChunk]))

/-- A mid-frame engine used as the witness input for C10: a five-point frame
with two pixels still outstanding. -/
def midPixelsEngine : FrameSyncEngine :=
  { FrameSyncEngine.new with
      state := .CollectingPixels 110 2 5
      current_mode := .FivePointScan }

/-! ### C6 — decimation is pure stride selection -/

/-- The decoded point of a pixel HWORD (the value inside the `some` that
`extract_coordinates_from_hword` returns on pixel HWORDs). -/
def decodePixel (hword : HWord) (whitelist : FieldWhitelist) : CoordinatePoint :=
  (extract_coordinates_from_hword hword whitelist).getD CoordinatePoint.new

/-- Three concrete pixel HWORDs used as the witness input for C6. -/
def witnessPixels : List HWord :=
  [parseHWord firstPixelChunk, parseHWord subPixelChunk, parseHWord subPixelChunk]

/-- A concrete pixel HWORD for the C7 witness: `x = -1.0`, `y = 2.0`,
`z = -3.0` in metres (fixed-point `-1024`, `2048`, `-3072`). -/
def witnessPixelHword : HWord :=
  parseHWord (bytesOfWord96 ((4 <<< 93) ||| (523264 ||| (2048 <<< 24) ||| (4191232 <<< 48))))

theorem ControlBits.fromU8_eq (v : Nat) : ControlBits.fromU8 v = some (ctrlOfNat v) := by
  have h : v &&& 7 = 0 ∨ v &&& 7 = 1 ∨ v &&& 7 = 2 ∨ v &&& 7 = 3 ∨ v &&& 7 = 4 ∨
      v &&& 7 = 5 ∨ v &&& 7 = 6 ∨ v &&& 7 = 7 := by
    have h7 : v &&& 7 ≤ 7 := Nat.and_le_right
    omega
  rcases h with h | h | h | h | h | h | h | h <;>
    simp [ControlBits.fromU8, ctrlOfNat, h]

theorem ctrlOfNat_toNat (v : Nat) : (ctrlOfNat v).toNat = v &&& 7 := by
  have h : v &&& 7 = 0 ∨ v &&& 7 = 1 ∨ v &&& 7 = 2 ∨ v &&& 7 = 3 ∨ v &&& 7 = 4 ∨
      v &&& 7 = 5 ∨ v &&& 7 = 6 ∨ v &&& 7 = 7 := by
    have h7 : v &&& 7 ≤ 7 := Nat.and_le_right
    omega
  rcases h with h | h | h | h | h | h | h | h <;>
    simp [ctrlOfNat, ControlBits.toNat, h]

theorem HWord.from_bytes_eq (bytes : List Nat) :
    HWord.from_bytes bytes = .ok (parseHWord bytes) := by
  simp only [HWord.from_bytes, parseHWord, chunkControl, ControlBits.fromU8_eq]

theorem ctrlOfNat_two : ctrlOfNat 2 = .FirstHeader := rfl

theorem ctrlOfNat_three : ctrlOfNat 3 = .SubsequentHeader := rfl

/-! ### C5 — mode derivation on `FirstHeader` in `WaitingForFrame` -/

/-- C5: in the `WaitingForFrame` state, a `FirstHeader` HWORD has its
NUM_PIXELS_RW lane read as `(payload >> 32) & 0xFFFF`, and the frame mode is
set to `OnePointScan` when `N = 1` (1 expected pixel), `FivePointScan` when
`N = 5` (5 expected pixels), `Imaging N` when `N > 5` (`N` expected pixels),
and defaults to 1 expected pixel when `N = 0`. -/
theorem frameMode_derivation_on_first_header
    (e : FrameSyncEngine) (c : List Nat) (N : Nat)
    (hs : e.state = .WaitingForFrame)
    (hc : chunkControl c = 2)
    (hN : numPixelsRW (parseHWord c) = N) :
    let e' := (FrameSyncEngine.process_hword e c).1
    (N = 1 → e'.current_mode = .OnePointScan ∧ e'.current_mode.expected_pixel_count = 1) ∧
    (N = 5 → e'.current_mode = .FivePointScan ∧ e'.current_mode.expected_pixel_count = 5) ∧
    (5 < N → e'.current_mode = .Imaging N ∧ e'.current_mode.expected_pixel_count = N) ∧
    (N = 0 → e'.current_mode = .OnePointScan ∧ e'.current_mode.expected_pixel_count = 1) := by
  have hctrl : (parseHWord c).control_bits = .FirstHeader := by
    have h0 : (parseHWord c).control_bits = ctrlOfNat (chunkControl c) := rfl
    rw [h0, hc]
    rfl
  have hnum : FrameSyncEngine.extract_num_pixels (parseHWord c) =
      some (if N > 0 then N else 1) := by
    simp only [FrameSyncEngine.extract_num_pixels, hctrl, ControlBits.is_frame_start,
      Bool.not_true, Bool.false_eq_true, not_false_eq_true, if_false]
    rw [show ((parseHWord c).data_as_u128 >>> 32) &&& 0xFFFF = numPixelsRW (parseHWord c) from rfl,
      hN]
    split_ifs with h1 h2 <;> simp_all <;> omega
  simp only [FrameSyncEngine.process_hword, HWord.from_bytes_eq, hs,
    FrameSyncEngine.waitingForFrameStep, hctrl, ControlBits.is_frame_start, if_true, hnum]
  refine ⟨?_, ?_, ?_, ?_⟩ <;> intro hNv <;> subst_eqs <;>
    simp_all [FrameMode.expected_pixel_count] <;> split_ifs <;>
    simp_all [FrameMode.expected_pixel_count] <;> omega

/-- Witness for C5 at `N = 7` (imaging mode). -/
theorem frameMode_derivation_witness :
    (engineWaitingForFrame.state = .WaitingForFrame ∧
     chunkControl (firstHeaderChunk 7) = 2 ∧
     numPixelsRW (parseHWord (firstHeaderChunk 7)) = 7) ∧
    (let e' := (FrameSyncEngine.process_hword engineWaitingForFrame (firstHeaderChunk 7)).1
     (7 = 1 → e'.current_mode = .OnePointScan ∧ e'.current_mode.expected_pixel_count = 1) ∧
     (7 = 5 → e'.current_mode = .FivePointScan ∧ e'.current_mode.expected_pixel_count = 5) ∧
     (5 < 7 → e'.current_mode = .Imaging 7 ∧ e'.current_mode.expected_pixel_count = 7) ∧
     (7 = 0 → e'.current_mode = .OnePointScan ∧ e'.current_mode.expected_pixel_count = 1)) :=
  ⟨⟨rfl, by decide, by decide⟩,
   frameMode_derivation_on_first_header engineWaitingForFrame (firstHeaderChunk 7) 7
     rfl (by decide) (by decide)⟩

theorem modeOfExpected_count (n : Nat) (hn : 1 ≤ n) :
    (modeOfExpected n).expected_pixel_count = n := by
  unfold modeOfExpected
  split_ifs with h1 h5 <;> simp [FrameMode.expected_pixel_count] <;> omega

theorem parseHWord_control (c : List Nat) :
    (parseHWord c).control_bits = ctrlOfNat (chunkControl c) := rfl

theorem extract_num_pixels_parse (c : List Nat) (N : Nat) (hc : chunkControl c = 2)
    (hN : numPixelsRW (parseHWord c) = N) (hN1 : 1 ≤ N) :
    FrameSyncEngine.extract_num_pixels (parseHWord c) = some N := by
  have hctrl : (parseHWord c).control_bits = .FirstHeader := by
    rw [parseHWord_control, hc]; rfl
  simp only [FrameSyncEngine.extract_num_pixels, hctrl, ControlBits.is_frame_start,
    Bool.not_true, Bool.false_eq_true, not_false_eq_true, if_false]
  rw [show ((parseHWord c).data_as_u128 >>> 32) &&& 0xFFFF = numPixelsRW (parseHWord c)
    from rfl, hN]
  simp; omega

/-- A `FirstHeader` arriving in `WaitingForSync` or `WaitingForFrame` starts a
new frame: buffer reset to the chunk, mode derived from NUM_PIXELS_RW, state
`CollectingHeader{1, Some(0)}`, statistics untouched. -/
theorem step_frameStart_entry (e : FrameSyncEngine) (c : List Nat)
    (hs : e.state = .WaitingForSync ∨ e.state = .WaitingForFrame)
    (hc : chunkControl c = 2) :
    ∃ e', FrameSyncEngine.process_hword e c = (e', none) ∧
      e'.state = .CollectingHeader 1 (some 0) ∧
      e'.frame_buffer = c ∧
      e'.current_mode =
        modeOfExpected ((FrameSyncEngine.extract_num_pixels (parseHWord c)).getD 1) ∧
      e'.sync_errors = e.sync_errors ∧
      e'.frames_completed = e.frames_completed := by
  have hctrl : (parseHWord c).control_bits = .FirstHeader := by
    rw [parseHWord_control, hc]; rfl
  have hidle : FrameSyncEngine.is_idle_hword c = false := by
    unfold FrameSyncEngine.is_idle_hword
    have : (c.getD 0 0 >>> 5) &&& 0x07 = 2 := hc
    split_ifs with h1 h2 <;> simp_all
  rcases hs with hs | hs <;>
    simp only [FrameSyncEngine.process_hword, HWord.from_bytes_eq, hs, hidle,
      Bool.false_eq_true, if_false, FrameSyncEngine.waitingForFrameStep, hctrl,
      ControlBits.is_frame_start, if_true, modeOfExpected] <;>
    exact ⟨_, rfl, rfl, rfl, rfl, rfl, rfl⟩

/-- A header HWORD in `CollectingHeader{count}` is appended; the state advances
to `CollectingHeader{count+1}` or, when the 110-header block is complete, to
`CollectingPixels` with the expected count taken from the current mode. -/
theorem step_collectingHeader_header (e : FrameSyncEngine) (c : List Nat)
    (count : Nat) (li : Option Nat)
    (hs : e.state = .CollectingHeader count li)
    (hc : chunkControl c = 2 ∨ chunkControl c = 3) :
    ∃ e' li', FrameSyncEngine.process_hword e c = (e', none) ∧
      e'.state = (if count + 1 ≥ 110 then
          .CollectingPixels (count + 1) 0 e.current_mode.expected_pixel_count
        else .CollectingHeader (count + 1) (some li')) ∧
      e'.frame_buffer = e.frame_buffer ++ c ∧
      e'.current_mode = e.current_mode ∧
      e'.sync_errors = e.sync_errors ∧
      e'.frames_completed = e.frames_completed := by
  have hctrl : (parseHWord c).control_bits.is_header = true := by
    rw [parseHWord_control]
    rcases hc with hc | hc <;> rw [hc] <;> rfl
  have hidx : FrameSyncEngine.extract_header_index (parseHWord c) =
      some (((parseHWord c).data_as_u128 >>> 84) &&& 0x0F) := by
    simp [FrameSyncEngine.extract_header_index, hctrl]
  rcases Nat.lt_or_ge (count + 1) 110 with hcnt | hcnt
  · simp only [FrameSyncEngine.process_hword, HWord.from_bytes_eq, hs, hctrl, hidx,
      eq_self_iff_true, if_true, HEADER_HWORDS_PER_FRAME]
    simp only [eq_false (show ¬count + 1 ≥ 110 by omega), if_false]
    exact ⟨_, _, rfl, rfl, rfl, rfl, rfl, rfl⟩
  · simp only [FrameSyncEngine.process_hword, HWord.from_bytes_eq, hs, hctrl, hidx,
      eq_self_iff_true, if_true, HEADER_HWORDS_PER_FRAME]
    simp only [eq_true (show count + 1 ≥ 110 from hcnt), if_true]
    exact ⟨_, 0, rfl, rfl, rfl, rfl, rfl, rfl⟩

theorem ctrlOfNat_is_frame_start (v : Nat) :
    (ctrlOfNat v).is_frame_start = decide (v &&& 7 = 2) := by
  have h : v &&& 7 = 0 ∨ v &&& 7 = 1 ∨ v &&& 7 = 2 ∨ v &&& 7 = 3 ∨ v &&& 7 = 4 ∨
      v &&& 7 = 5 ∨ v &&& 7 = 6 ∨ v &&& 7 = 7 := by
    have h7 : v &&& 7 ≤ 7 := Nat.and_le_right
    omega
  rcases h with h | h | h | h | h | h | h | h <;>
    simp [ctrlOfNat, ControlBits.is_frame_start, h]

theorem chunkControl_and_seven (c : List Nat) : chunkControl c &&& 7 = chunkControl c := by
  rw [show (7 : Nat) = 2 ^ 3 - 1 from rfl]
  exact Nat.and_pow_two_sub_one_of_lt_two_pow
    (by have := Nat.and_le_right (n := c.getD 0 0 >>> 5) (m := 7); unfold chunkControl; omega)

/-- Any non-`FirstHeader` HWORD in `WaitingForFrame` is dropped. -/
theorem step_waitingForFrame_drop (e : FrameSyncEngine) (c : List Nat)
    (hs : e.state = .WaitingForFrame) (hc : chunkControl c ≠ 2) :
    FrameSyncEngine.process_hword e c = (e, none) := by
  have hfs : (parseHWord c).control_bits.is_frame_start = false := by
    rw [parseHWord_control, ctrlOfNat_is_frame_start, chunkControl_and_seven]
    simpa using hc
  simp only [FrameSyncEngine.process_hword, HWord.from_bytes_eq, hs,
    FrameSyncEngine.waitingForFrameStep, hfs, Bool.false_eq_true, if_false]

/-- The exact Idle pattern in `WaitingForSync` establishes synchronization. -/
theorem step_waitingForSync_idle (e : FrameSyncEngine)
    (hs : e.state = .WaitingForSync) :
    FrameSyncEngine.process_hword e IDLE_HWORD_PATTERN =
      ({ e with state := .WaitingForFrame }, none) := by
  have hidle : FrameSyncEngine.is_idle_hword IDLE_HWORD_PATTERN = true := by decide
  simp only [FrameSyncEngine.process_hword, HWord.from_bytes_eq, hs, hidle, if_true]

/-- A pixel HWORD in `CollectingPixels` short of the expected count is
appended and counted. -/
theorem step_collectingPixels_pixel_continue (e : FrameSyncEngine) (c : List Nat)
    (hcount pcount exp : Nat)
    (hs : e.state = .CollectingPixels hcount pcount exp)
    (hc : chunkControl c = 4 ∨ chunkControl c = 5)
    (hlt : pcount + 1 < exp) :
    ∃ e', FrameSyncEngine.process_hword e c = (e', none) ∧
      e'.state = .CollectingPixels hcount (pcount + 1) exp ∧
      e'.frame_buffer = e.frame_buffer ++ c ∧
      e'.current_mode = e.current_mode ∧
      e'.sync_errors = e.sync_errors ∧
      e'.frames_completed = e.frames_completed := by
  have hctrl : (parseHWord c).control_bits.is_pixel = true := by
    rw [parseHWord_control]
    rcases hc with hc | hc <;> rw [hc] <;> rfl
  simp only [FrameSyncEngine.process_hword, HWord.from_bytes_eq, hs, hctrl,
    eq_self_iff_true, if_true]
  simp only [eq_false (show ¬pcount + 1 ≥ exp by omega), if_false]
  exact ⟨_, rfl, rfl, rfl, rfl, rfl, rfl⟩

/-- The pixel HWORD that reaches the expected count completes the frame: the
buffer (with this pixel appended) is emitted, `frames_completed` increments,
and the engine returns to `WaitingForFrame`. -/
theorem step_collectingPixels_pixel_emit (e : FrameSyncEngine) (c : List Nat)
    (hcount pcount exp : Nat)
    (hs : e.state = .CollectingPixels hcount pcount exp)
    (hc : chunkControl c = 4 ∨ chunkControl c = 5)
    (hge : pcount + 1 ≥ exp) :
    ∃ e', FrameSyncEngine.process_hword e c = (e', some (e.frame_buffer ++ c)) ∧
      e'.state = .WaitingForFrame ∧
      e'.frame_buffer = e.frame_buffer ++ c ∧
      e'.current_mode = e.current_mode ∧
      e'.sync_errors = e.sync_errors ∧
      e'.frames_completed = e.frames_completed + 1 := by
  have hctrl : (parseHWord c).control_bits.is_pixel = true := by
    rw [parseHWord_control]
    rcases hc with hc | hc <;> rw [hc] <;> rfl
  simp only [FrameSyncEngine.process_hword, HWord.from_bytes_eq, hs, hctrl,
    eq_self_iff_true, if_true]
  simp only [eq_true (show pcount + 1 ≥ exp from hge), if_true]
  exact ⟨_, rfl, rfl, rfl, rfl, rfl, rfl⟩

/-- A `FirstHeader` in `CollectingPixels` (lost frame tail): `sync_errors`
increments, the buffer is discarded and restarted with this chunk, the state
restarts header collection — and `current_mode` is left untouched. -/
theorem step_collectingPixels_frameStart (e : FrameSyncEngine) (c : List Nat)
    (hcount pcount exp : Nat)
    (hs : e.state = .CollectingPixels hcount pcount exp)
    (hc : chunkControl c = 2) :
    ∃ e', FrameSyncEngine.process_hword e c = (e', none) ∧
      e'.state = .CollectingHeader 1 (some 0) ∧
      e'.frame_buffer = c ∧
      e'.current_mode = e.current_mode ∧
      e'.sync_errors = e.sync_errors + 1 ∧
      e'.frames_completed = e.frames_completed := by
  have hctrl : (parseHWord c).control_bits = .FirstHeader := by
    rw [parseHWord_control, hc]; rfl
  simp only [FrameSyncEngine.process_hword, HWord.from_bytes_eq, hs, hctrl,
    ControlBits.is_pixel, ControlBits.is_frame_start, Bool.false_eq_true, if_false, if_true]
  exact ⟨_, rfl, rfl, rfl, rfl, rfl, rfl⟩

/-! ### Multi-step runs of the engine -/

theorem processAll_cons (e : FrameSyncEngine) (c : List Nat) (rest : List (List Nat)) :
    FrameSyncEngine.processAll e (c :: rest) =
      ((FrameSyncEngine.processAll (FrameSyncEngine.process_hword e c).1 rest).1,
       (FrameSyncEngine.process_hword e c).2.toList ++
         (FrameSyncEngine.processAll (FrameSyncEngine.process_hword e c).1 rest).2) := by
  simp [FrameSyncEngine.processAll]

theorem processAll_append (e : FrameSyncEngine) (xs ys : List (List Nat)) :
    FrameSyncEngine.processAll e (xs ++ ys) =
      ((FrameSyncEngine.processAll (FrameSyncEngine.processAll e xs).1 ys).1,
       (FrameSyncEngine.processAll e xs).2 ++
         (FrameSyncEngine.processAll (FrameSyncEngine.processAll e xs).1 ys).2) := by
  induction xs generalizing e with
  | nil => simp [FrameSyncEngine.processAll]
  | cons c rest ih =>
    simp only [List.cons_append, processAll_cons, ih, List.append_assoc]

/-- Running a block of header HWORDs while still short of the 110-header
boundary keeps the engine in `CollectingHeader`, appending every chunk. -/
theorem run_headers (hdrs : List (List Nat)) :
    ∀ (e : FrameSyncEngine) (count : Nat) (li : Option Nat),
    (∀ h ∈ hdrs, chunkControl h = 2 ∨ chunkControl h = 3) →
    e.state = .CollectingHeader count li →
    count + hdrs.length ≤ 109 →
    ∃ e' li', FrameSyncEngine.processAll e hdrs = (e', []) ∧
      e'.state = .CollectingHeader (count + hdrs.length) li' ∧
      e'.frame_buffer = e.frame_buffer ++ hdrs.flatten ∧
      e'.current_mode = e.current_mode ∧
      e'.sync_errors = e.sync_errors ∧
      e'.frames_completed = e.frames_completed := by
  induction hdrs with
  | nil =>
    intro e count li _ hs _
    exact ⟨e, li, rfl, by simpa using hs, by simp, rfl, rfl, rfl⟩
  | cons h t ih =>
    intro e count li hh hs hbound
    obtain ⟨e1, li1, hp, hs1, hb1, hm1, hsync1, hf1⟩ :=
      step_collectingHeader_header e h count li hs (hh h (by simp))
    simp only [eq_false (show ¬count + 1 ≥ 110 by simp at hbound; omega), if_false] at hs1
    obtain ⟨e2, li2, hp2, hs2, hb2, hm2, hsync2, hf2⟩ :=
      ih e1 (count + 1) (some li1) (fun x hx => hh x (by simp [hx])) hs1
        (by simp at hbound ⊢; omega)
    refine ⟨e2, li2, ?_, ?_, ?_, ?_, ?_, ?_⟩
    · rw [processAll_cons, hp, hp2]; rfl
    · rw [hs2]; congr 1; simp; omega
    · rw [hb2, hb1]; simp
    · rw [hm2, hm1]
    · rw [hsync2, hsync1]
    · rw [hf2, hf1]

/-- Running pixel HWORDs short of the expected count keeps the engine in
`CollectingPixels`, appending every chunk. -/
theorem run_pixels (pxs : List (List Nat)) :
    ∀ (e : FrameSyncEngine) (hcount pcount exp : Nat),
    (∀ p ∈ pxs, chunkControl p = 4 ∨ chunkControl p = 5) →
    e.state = .CollectingPixels hcount pcount exp →
    pcount + pxs.length < exp →
    ∃ e', FrameSyncEngine.processAll e pxs = (e', []) ∧
      e'.state = .CollectingPixels hcount (pcount + pxs.length) exp ∧
      e'.frame_buffer = e.frame_buffer ++ pxs.flatten ∧
      e'.current_mode = e.current_mode ∧
      e'.sync_errors = e.sync_errors ∧
      e'.frames_completed = e.frames_completed := by
  induction pxs with
  | nil =>
    intro e hcount pcount exp _ hs _
    exact ⟨e, rfl, by simpa using hs, by simp, rfl, rfl, rfl⟩
  | cons p t ih =>
    intro e hcount pcount exp hp hs hbound
    obtain ⟨e1, hstep, hs1, hb1, hm1, hsync1, hf1⟩ :=
      step_collectingPixels_pixel_continue e p hcount pcount exp hs (hp p (by simp))
        (by simp at hbound; omega)
    obtain ⟨e2, hp2, hs2, hb2, hm2, hsync2, hf2⟩ :=
      ih e1 hcount (pcount + 1) exp (fun x hx => hp x (by simp [hx])) hs1
        (by simp at hbound ⊢; omega)
    refine ⟨e2, ?_, ?_, ?_, ?_, ?_, ?_⟩
    · rw [processAll_cons, hstep, hp2]; rfl
    · rw [hs2]; congr 1; simp; omega
    · rw [hb2, hb1]; simp
    · rw [hm2, hm1]
    · rw [hsync2, hsync1]
    · rw [hf2, hf1]

/-- A full block of 109 headers following the `FirstHeader` carries the engine
from `CollectingHeader{1}` into `CollectingPixels{110, 0, mode.N}` where the
expected pixel count comes from the engine's current mode. -/
theorem run_headers_to_pixels (hdrs : List (List Nat)) (e : FrameSyncEngine)
    (hlen : hdrs.length = 109)
    (hh : ∀ h ∈ hdrs, chunkControl h = 2 ∨ chunkControl h = 3)
    (hs : e.state = .CollectingHeader 1 (some 0)) :
    ∃ e', FrameSyncEngine.processAll e hdrs = (e', []) ∧
      e'.state = .CollectingPixels 110 0 e.current_mode.expected_pixel_count ∧
      e'.frame_buffer = e.frame_buffer ++ hdrs.flatten ∧
      e'.current_mode = e.current_mode ∧
      e'.sync_errors = e.sync_errors ∧
      e'.frames_completed = e.frames_completed := by
  have hsplit : hdrs = hdrs.take 108 ++ hdrs.drop 108 := (List.take_append_drop 108 hdrs).symm
  have hlen108 : (hdrs.take 108).length = 108 := by simp [hlen]
  have hlast : ∃ x, hdrs.drop 108 = [x] := by
    have : (hdrs.drop 108).length = 1 := by simp [hlen]
    exact List.length_eq_one.mp this
  obtain ⟨x, hx⟩ := hlast
  obtain ⟨e1, li1, hp1, hs1, hb1, hm1, hsync1, hf1⟩ :=
    run_headers (hdrs.take 108) e 1 (some 0)
      (fun h hm => hh h (List.mem_of_mem_take hm)) hs (by omega)
  have hxctrl : chunkControl x = 2 ∨ chunkControl x = 3 := by
    apply hh; rw [hsplit, hx]; simp
  obtain ⟨e2, li2, hp2, hs2, hb2, hm2, hsync2, hf2⟩ :=
    step_collectingHeader_header e1 x (1 + 108) li1 (by rw [hs1, hlen108]) hxctrl
  simp only [eq_true (show 1 + 108 + 1 ≥ 110 by omega), if_true] at hs2
  refine ⟨e2, ?_, ?_, ?_, ?_, ?_, ?_⟩
  · conv_lhs => rw [hsplit]
    rw [processAll_append, hp1, hx]
    simp [FrameSyncEngine.processAll, hp2]
  · rw [hs2, hm1]
  · rw [hb2, hb1]
    conv_rhs => rw [hsplit]
    simp [hx]
  · rw [hm2, hm1]
  · rw [hsync2, hsync1]
  · rw [hf2, hf1]

/-- Running pixel HWORDs that exactly reach the expected count emits the
accumulated frame (buffer plus all the pixels) and returns to
`WaitingForFrame`, incrementing `frames_completed` and nothing else. -/
theorem run_pixels_to_completion (pxs : List (List Nat)) :
    ∀ (e : FrameSyncEngine) (hcount pcount exp : Nat),
    (∀ p ∈ pxs, chunkControl p = 4 ∨ chunkControl p = 5) →
    e.state = .CollectingPixels hcount pcount exp →
    pcount + pxs.length = exp →
    pxs ≠ [] →
    ∃ e', FrameSyncEngine.processAll e pxs = (e', [e.frame_buffer ++ pxs.flatten]) ∧
      e'.state = .WaitingForFrame ∧
      e'.current_mode = e.current_mode ∧
      e'.sync_errors = e.sync_errors ∧
      e'.frames_completed = e.frames_completed + 1 := by
  induction pxs with
  | nil => intro _ _ _ _ _ _ _ hne; exact absurd rfl hne
  | cons p t ih =>
    intro e hcount pcount exp hp hs hcnt _
    rcases List.eq_nil_or_concat' t with rfl | ht
    · obtain ⟨e1, hstep, hs1, hb1, hm1, hsync1, hf1⟩ :=
        step_collectingPixels_pixel_emit e p hcount pcount exp hs (hp p (by simp))
          (by simp at hcnt; omega)
      refine ⟨e1, ?_, hs1, hm1, hsync1, by rw [hf1]⟩
      rw [processAll_cons, hstep]
      simp [FrameSyncEngine.processAll]
    · obtain ⟨e1, hstep, hs1, hb1, hm1, hsync1, hf1⟩ :=
        step_collectingPixels_pixel_continue e p hcount pcount exp hs (hp p (by simp))
          (by obtain ⟨_, _, rfl⟩ := ht; simp at hcnt ⊢; omega)
      obtain ⟨e2, hp2, hs2, hm2, hsync2, hf2⟩ :=
        ih e1 hcount (pcount + 1) exp (fun x hx => hp x (by simp [hx])) hs1
          (by simp at hcnt ⊢; omega) (by obtain ⟨_, _, rfl⟩ := ht; simp)
      refine ⟨e2, ?_, hs2, by rw [hm2, hm1], by rw [hsync2, hsync1], by rw [hf2, hf1]⟩
      rw [processAll_cons, hstep, hp2, hb1]
      simp

/-- Processing one cycle from a synchronized (or cold-start) state emits
exactly one blob and returns to `WaitingForFrame` without touching
`sync_errors`. -/
theorem run_cycle (N : Nat) (hN : 1 ≤ N) (cyc : List (List Nat)) (hcyc : IsCycle N cyc)
    (e : FrameSyncEngine)
    (hs : e.state = .WaitingForSync ∨ e.state = .WaitingForFrame) :
    ∃ e' blob, FrameSyncEngine.processAll e cyc = (e', [blob]) ∧
      e'.state = .WaitingForFrame ∧
      e'.sync_errors = e.sync_errors ∧
      e'.frames_completed = e.frames_completed + 1 := by
  obtain ⟨fh, hdrs, fp, pxs, rfl, hfh2, hfhN, hhlen, hh3, hfp4, hpxlen, hpx5⟩ := hcyc
  obtain ⟨e1, hp1, hs1, hb1, hm1, hsync1, hf1⟩ := step_frameStart_entry e fh hs hfh2
  have hmode : e1.current_mode = modeOfExpected N := by
    rw [hm1, extract_num_pixels_parse fh N hfh2 hfhN hN]; rfl
  obtain ⟨e2, hp2, hs2, hb2, hm2, hsync2, hf2⟩ :=
    run_headers_to_pixels hdrs e1 hhlen (fun h hm => Or.inr (hh3 h hm)) hs1
  rw [hmode, modeOfExpected_count N hN] at hs2
  obtain ⟨e3, hp3, hs3, hm3, hsync3, hf3⟩ :=
    run_pixels_to_completion (fp :: pxs) e2 110 0 N
      (by intro p hmem
          rcases List.mem_cons.mp hmem with rfl | hmem
          · exact Or.inl hfp4
          · exact Or.inr (hpx5 p hmem))
      hs2 (by simp [hpxlen]; omega) (by simp)
  refine ⟨e3, e2.frame_buffer ++ (fp :: pxs).flatten, ?_, hs3, ?_, ?_⟩
  · rw [processAll_cons, hp1, processAll_append, hp2, hp3]
    simp
  · rw [hsync3, hsync2, hsync1]
  · rw [hf3, hf2, hf1]

theorem chunkControl_idle : chunkControl IDLE_HWORD_PATTERN = 7 := by decide

/-- A run of Idle chunks from a synchronized-or-cold state never emits, never
counts an error, and leaves the engine synchronized or cold. -/
theorem run_idles (m : Nat) :
    ∀ e : FrameSyncEngine,
    (e.state = .WaitingForSync ∨ e.state = .WaitingForFrame) →
    ∃ e', FrameSyncEngine.processAll e (List.replicate m IDLE_HWORD_PATTERN) = (e', []) ∧
      (e'.state = .WaitingForSync ∨ e'.state = .WaitingForFrame) ∧
      e'.sync_errors = e.sync_errors ∧
      e'.frames_completed = e.frames_completed := by
  induction m with
  | zero => intro e hs; exact ⟨e, rfl, hs, rfl, rfl⟩
  | succ n ih =>
    intro e hs
    rcases hs with hs | hs
    · obtain ⟨e', hp', hs', hsync', hf'⟩ :=
        ih ({ e with state := .WaitingForFrame }) (Or.inr rfl)
      refine ⟨e', ?_, hs', hsync', hf'⟩
      rw [List.replicate_succ, processAll_cons, step_waitingForSync_idle e hs, hp']
      rfl
    · obtain ⟨e', hp', hs', hsync', hf'⟩ := ih e (Or.inr hs)
      refine ⟨e', ?_, hs', hsync', hf'⟩
      rw [List.replicate_succ, processAll_cons,
        step_waitingForFrame_drop e IDLE_HWORD_PATTERN hs (by rw [chunkControl_idle]; omega), hp']
      rfl

/-- A run of well-formed cycles from a synchronized-or-cold state emits one
blob per cycle and never counts a sync error. -/
theorem run_cycles (N : Nat) (hN : 1 ≤ N) (cycles : List (List (List Nat))) :
    ∀ e : FrameSyncEngine,
    (∀ cyc ∈ cycles, IsCycle N cyc) →
    (e.state = .WaitingForSync ∨ e.state = .WaitingForFrame) →
    (FrameSyncEngine.processAll e cycles.flatten).2.length = cycles.length ∧
    (FrameSyncEngine.processAll e cycles.flatten).1.sync_errors = e.sync_errors ∧
    (FrameSyncEngine.processAll e cycles.flatten).1.frames_completed =
      e.frames_completed + cycles.length ∧
    ((FrameSyncEngine.processAll e cycles.flatten).1.state = .WaitingForSync ∨
     (FrameSyncEngine.processAll e cycles.flatten).1.state = .WaitingForFrame) := by
  induction cycles with
  | nil => intro e _ hs; exact ⟨rfl, rfl, rfl, hs⟩
  | cons cyc rest ih =>
    intro e hcy hs
    obtain ⟨e1, blob, hp1, hs1, hsync1, hf1⟩ :=
      run_cycle N hN cyc (hcy cyc (by simp)) e hs
    obtain ⟨hlen2, hsync2, hf2, hs2⟩ :=
      ih e1 (fun x hx => hcy x (by simp [hx])) (Or.inr hs1)
    have heq : FrameSyncEngine.processAll e (cyc :: rest).flatten =
        ((FrameSyncEngine.processAll e1 rest.flatten).1,
         [blob] ++ (FrameSyncEngine.processAll e1 rest.flatten).2) := by
      rw [List.flatten_cons, processAll_append, hp1]
    rw [heq]
    refine ⟨?_, ?_, ?_, hs2⟩
    · simp [hlen2]
    · simpa [hsync2] using hsync1
    · simp only []
      rw [hf2, hf1]
      simp
      omega

theorem frameStart_chunkControl {c : List Nat}
    (h : (parseHWord c).control_bits.is_frame_start = true) : chunkControl c = 2 := by
  rw [parseHWord_control, ctrlOfNat_is_frame_start, chunkControl_and_seven] at h
  simpa using h

theorem chunkControl_append {buf : List Nat} (c : List Nat) (h : 1 ≤ buf.length) :
    chunkControl (buf ++ c) = chunkControl buf := by
  cases buf with
  | nil => simp at h
  | cons b t => simp [chunkControl]

theorem bufInv_step (e : FrameSyncEngine) (c : List Nat)
    (hinv : BufInv e) (hlen : c.length = 12) :
    BufInv (FrameSyncEngine.process_hword e c).1 ∧
    ∀ blob, (FrameSyncEngine.process_hword e c).2 = some blob →
      12 ≤ blob.length ∧ chunkControl blob = 2 := by
  rcases hstate : e.state with _ | _ | ⟨count, li⟩ | ⟨hcnt, pcnt, ex⟩ | _
  · -- WaitingForSync
    rcases hB : FrameSyncEngine.is_idle_hword c with _ | _
    · rcases hF : (parseHWord c).control_bits.is_frame_start with _ | _
      · simp only [FrameSyncEngine.process_hword, HWord.from_bytes_eq, hstate, hB, hF,
          Bool.false_eq_true, if_false, FrameSyncEngine.waitingForFrameStep]
        refine ⟨fun hcol => ?_, fun blob hblob => by simp at hblob⟩
        rw [hstate] at hcol
        simp [CollectingState] at hcol
      · simp only [FrameSyncEngine.process_hword, HWord.from_bytes_eq, hstate, hB, hF,
          Bool.false_eq_true, if_false, if_true, FrameSyncEngine.waitingForFrameStep]
        refine ⟨fun _ => ⟨by simp [hlen], frameStart_chunkControl hF⟩,
          fun blob hblob => by simp at hblob⟩
    · simp only [FrameSyncEngine.process_hword, HWord.from_bytes_eq, hstate, hB, if_true]
      refine ⟨fun hcol => ?_, fun blob hblob => by simp at hblob⟩
      simp [CollectingState] at hcol
  · -- WaitingForFrame
    rcases hF : (parseHWord c).control_bits.is_frame_start with _ | _
    · simp only [FrameSyncEngine.process_hword, HWord.from_bytes_eq, hstate,
        FrameSyncEngine.waitingForFrameStep, hF, Bool.false_eq_true, if_false]
      refine ⟨fun hcol => ?_, fun blob hblob => by simp at hblob⟩
      rw [hstate] at hcol
      simp [CollectingState] at hcol
    · simp only [FrameSyncEngine.process_hword, HWord.from_bytes_eq, hstate,
        FrameSyncEngine.waitingForFrameStep, hF, if_true]
      refine ⟨fun _ => ⟨by simp [hlen], frameStart_chunkControl hF⟩,
        fun blob hblob => by simp at hblob⟩
  · -- CollectingHeader
    have hbuf : 12 ≤ e.frame_buffer.length ∧ chunkControl e.frame_buffer = 2 :=
      hinv (by rw [hstate]; trivial)
    rcases hH : (parseHWord c).control_bits.is_header with _ | _
    · rcases hP : (parseHWord c).control_bits.is_pixel with _ | _
      · simp only [FrameSyncEngine.process_hword, HWord.from_bytes_eq, hstate, hH, hP,
          Bool.false_eq_true, if_false]
        refine ⟨fun hcol => ?_, fun blob hblob => by simp at hblob⟩
        rw [hstate] at hcol
        exact hbuf
      · simp only [FrameSyncEngine.process_hword, HWord.from_bytes_eq, hstate, hH, hP,
          Bool.false_eq_true, if_false, if_true]
        refine ⟨fun _ => ⟨?_, ?_⟩, fun blob hblob => by simp at hblob⟩
        · simp; omega
        · rw [chunkControl_append c (by omega)]; exact hbuf.2
    · have hidx : FrameSyncEngine.extract_header_index (parseHWord c) =
          some (((parseHWord c).data_as_u128 >>> 84) &&& 0x0F) := by
        simp [FrameSyncEngine.extract_header_index, hH]
      by_cases hc110 : count + 1 ≥ 110
      · simp only [FrameSyncEngine.process_hword, HWord.from_bytes_eq, hstate, hH,
          if_true, hidx, HEADER_HWORDS_PER_FRAME, eq_true hc110]
        refine ⟨fun _ => ⟨?_, ?_⟩, fun blob hblob => by simp at hblob⟩
        · simp; omega
        · rw [chunkControl_append c (by omega)]; exact hbuf.2
      · simp only [FrameSyncEngine.process_hword, HWord.from_bytes_eq, hstate, hH,
          if_true, hidx, HEADER_HWORDS_PER_FRAME, eq_false hc110, if_false]
        refine ⟨fun _ => ⟨?_, ?_⟩, fun blob hblob => by simp at hblob⟩
        · simp; omega
        · rw [chunkControl_append c (by omega)]; exact hbuf.2
  · -- CollectingPixels
    have hbuf : 12 ≤ e.frame_buffer.length ∧ chunkControl e.frame_buffer = 2 :=
      hinv (by rw [hstate]; trivial)
    rcases hP : (parseHWord c).control_bits.is_pixel with _ | _
    · rcases hF : (parseHWord c).control_bits.is_frame_start with _ | _
      · simp only [FrameSyncEngine.process_hword, HWord.from_bytes_eq, hstate, hP, hF,
          Bool.false_eq_true, if_false]
        refine ⟨fun hcol => ?_, fun blob hblob => by simp at hblob⟩
        rw [hstate] at hcol
        exact hbuf
      · simp only [FrameSyncEngine.process_hword, HWord.from_bytes_eq, hstate, hP, hF,
          Bool.false_eq_true, if_false, if_true]
        refine ⟨fun _ => ⟨by simp [hlen], frameStart_chunkControl hF⟩,
          fun blob hblob => by simp at hblob⟩
    · by_cases hge : pcnt + 1 ≥ ex
      · simp only [FrameSyncEngine.process_hword, HWord.from_bytes_eq, hstate, hP,
          if_true, eq_true hge]
        refine ⟨fun hcol => by simp [CollectingState] at hcol, fun blob hblob => ?_⟩
        have hblob' : e.frame_buffer ++ c = blob := by simpa using hblob
        rw [← hblob']
        refine ⟨by simp; omega, ?_⟩
        rw [chunkControl_append c (by omega)]
        exact hbuf.2
      · simp only [FrameSyncEngine.process_hword, HWord.from_bytes_eq, hstate, hP,
          if_true, eq_false hge, if_false]
        refine ⟨fun _ => ⟨?_, ?_⟩, fun blob hblob => by simp at hblob⟩
        · simp; omega
        · rw [chunkControl_append c (by omega)]; exact hbuf.2
  · -- FrameComplete
    simp only [FrameSyncEngine.process_hword, HWord.from_bytes_eq, hstate]
    refine ⟨fun hcol => ?_, fun blob hblob => by simp at hblob⟩
    rw [hstate] at hcol
    simp [CollectingState] at hcol

theorem bufInv_run (stream : List (List Nat)) :
    ∀ e : FrameSyncEngine, BufInv e → (∀ c ∈ stream, c.length = 12) →
    BufInv (FrameSyncEngine.processAll e stream).1 ∧
    ∀ blob ∈ (FrameSyncEngine.processAll e stream).2,
      12 ≤ blob.length ∧ chunkControl blob = 2 := by
  induction stream with
  | nil => intro e hinv _; exact ⟨hinv, by simp [FrameSyncEngine.processAll]⟩
  | cons c rest ih =>
    intro e hinv hlen
    obtain ⟨hinv1, hemit1⟩ := bufInv_step e c hinv (hlen c (by simp))
    obtain ⟨hinv2, hemit2⟩ :=
      ih (FrameSyncEngine.process_hword e c).1 hinv1 (fun x hx => hlen x (by simp [hx]))
    rw [processAll_cons]
    refine ⟨hinv2, fun blob hblob => ?_⟩
    rcases List.mem_append.mp hblob with hmem | hmem
    · rcases ho : (FrameSyncEngine.process_hword e c).2 with _ | out
      · rw [ho] at hmem; simp at hmem
      · rw [ho] at hmem
        simp only [Option.toList_some, List.mem_singleton] at hmem
        exact hmem ▸ hemit1 out ho
    · exact hemit2 blob hmem

theorem chunkControl_take12 {blob : List Nat} (h : 1 ≤ blob.length) :
    chunkControl (blob.take 12) = chunkControl blob := by
  cases blob with
  | nil => simp at h
  | cons b t => simp [chunkControl]

/-- C3: on any input stream of 12-byte chunks, every frame blob the engine
emits begins with 12 bytes whose control code (top 3 bits of byte 0) is
`FirstHeader` (`010`). -/
theorem emitted_blob_starts_with_FirstHeader (stream : List (List Nat))
    (hlen : ∀ c ∈ stream, c.length = 12) :
    ∀ blob ∈ (FrameSyncEngine.processAll FrameSyncEngine.new stream).2,
      12 ≤ blob.length ∧ chunkControl (blob.take 12) = 2 := by
  have hinit : BufInv FrameSyncEngine.new := by
    intro hcol
    simp [FrameSyncEngine.new, CollectingState] at hcol
  obtain ⟨_, hemit⟩ := bufInv_run stream FrameSyncEngine.new hinit hlen
  intro blob hblob
  obtain ⟨h1, h2⟩ := hemit blob hblob
  exact ⟨h1, by rw [chunkControl_take12 (by omega)]; exact h2⟩

/-- Witness for C3: a short stream that emits one frame (via the
premature-pixel path). -/
theorem emitted_blob_starts_with_FirstHeader_witness :
    (∀ c ∈ [firstHeaderChunk 1, firstPixelChunk, subPixelChunk], c.length = 12) ∧
    (∀ blob ∈ (FrameSyncEngine.processAll FrameSyncEngine.new
        [firstHeaderChunk 1, firstPixelChunk, subPixelChunk]).2,
      12 ≤ blob.length ∧ chunkControl (blob.take 12) = 2) :=
  ⟨by decide,
   emitted_blob_starts_with_FirstHeader
     [firstHeaderChunk 1, firstPixelChunk, subPixelChunk] (by decide)⟩

/-! ### C1 — sync monotonicity on well-formed streams -/

/-- C1: for `N ≥ 1`, feeding `Idle^m` followed by any number of well-formed
frame cycles (`FirstHeader` with NUM_PIXELS_RW lane `N`, 109
`SubsequentHeader`, `FirstPixel`, `N-1` `SubsequentPixel`) to a fresh sync
engine emits exactly one frame blob per cycle and leaves `sync_errors = 0`. -/
theorem sync_engine_monotonicity (N m : Nat) (cycles : List (List (List Nat)))
    (hN : 1 ≤ N) (hcy : ∀ cyc ∈ cycles, IsCycle N cyc) :
    (FrameSyncEngine.processAll FrameSyncEngine.new
        (List.replicate m IDLE_HWORD_PATTERN ++ cycles.flatten)).2.length = cycles.length ∧
    (FrameSyncEngine.processAll FrameSyncEngine.new
        (List.replicate m IDLE_HWORD_PATTERN ++ cycles.flatten)).1.sync_errors = 0 := by
  obtain ⟨e1, hp1, hs1, hsync1, hf1⟩ := run_idles m FrameSyncEngine.new (Or.inl rfl)
  obtain ⟨hlen2, hsync2, _, _⟩ := run_cycles N hN cycles e1 hcy hs1
  have heq : FrameSyncEngine.processAll FrameSyncEngine.new
      (List.replicate m IDLE_HWORD_PATTERN ++ cycles.flatten) =
      ((FrameSyncEngine.processAll e1 cycles.flatten).1,
       [] ++ (FrameSyncEngine.processAll e1 cycles.flatten).2) := by
    rw [processAll_append, hp1]
  rw [heq]
  constructor
  · simpa using hlen2
  · simp only [List.nil_append]
    rw [hsync2, hsync1]
    rfl

theorem oneCycleN1_isCycle : ∀ cyc ∈ [oneCycleN1], IsCycle 1 cyc := by
  intro cyc hmem
  rcases List.mem_cons.mp hmem with rfl | hmem
  · refine ⟨firstHeaderChunk 1, List.replicate 109 subHeaderChunk, firstPixelChunk, [],
      rfl, by decide, by decide, by simp, ?_, by decide, by simp, by simp⟩
    intro h hm
    rw [List.eq_of_mem_replicate hm]
    decide
  · simp at hmem

/-- Witness for C1 at `N = 1`, `m = 1`, a single cycle. -/
theorem sync_engine_monotonicity_witness :
    ((1 ≤ 1) ∧ (∀ cyc ∈ [oneCycleN1], IsCycle 1 cyc)) ∧
    ((FrameSyncEngine.processAll FrameSyncEngine.new
        (List.replicate 1 IDLE_HWORD_PATTERN ++ [oneCycleN1].flatten)).2.length =
      [oneCycleN1].length ∧
     (FrameSyncEngine.processAll FrameSyncEngine.new
        (List.replicate 1 IDLE_HWORD_PATTERN ++ [oneCycleN1].flatten)).1.sync_errors = 0) :=
  ⟨⟨le_refl 1, oneCycleN1_isCycle⟩,
   sync_engine_monotonicity 1 1 [oneCycleN1] (le_refl 1) oneCycleN1_isCycle⟩

/-- C2 counterexample: the S3 stream does NOT increment `sync_errors` and does
NOT emit a frame.  The `CollectingHeader` arm classifies the second
`FirstHeader` with `is_header()` — which is true for `FirstHeader` — so it is
absorbed as the 52nd header of the first frame instead of restarting. -/
theorem s3_scenario_counterexample :
    ¬((FrameSyncEngine.processAll FrameSyncEngine.new s3Stream).1.sync_errors = 1 ∧
      (FrameSyncEngine.processAll FrameSyncEngine.new s3Stream).2.length = 1) := by
  decide

/-- C2 (amended): feeding the S3 stream leaves `sync_errors = 0`, emits no
frame, and keeps the first frame's buffer: the second `FirstHeader` is
appended to it as an ordinary header HWORD, the header block completes at 110
HWORDs (the 51 remaining `SubsequentHeader`s beyond it are dropped in
`CollectingPixels`), and the engine ends in
`CollectingPixels{header_count=110, pixel_count=1, expected_pixels=5}` with
111 HWORDs (1332 bytes) buffered. -/
theorem s3_scenario_behaviour :
    (FrameSyncEngine.processAll FrameSyncEngine.new s3Stream).1.sync_errors = 0 ∧
    (FrameSyncEngine.processAll FrameSyncEngine.new s3Stream).2 = [] ∧
    (FrameSyncEngine.processAll FrameSyncEngine.new s3Stream).1.state =
      .CollectingPixels 110 1 5 ∧
    (FrameSyncEngine.processAll FrameSyncEngine.new s3Stream).1.frame_buffer.length =
      12 * 111 := by
  decide

/-! ### C9 — synthetic source parity -/

/-- C9 (refuting evaluation): the header HWORDs of
`generate_synthetic_frame` are built WITHOUT computing the parity bit (only
the pixel HWORDs set it), so the `SubsequentHeader` HWORD of every synthetic
frame — its 96-bit word is `3 << 93`, two one-bits — fails `verify_parity`,
and so does the `FirstHeader` of frame 1 (ten one-bits).  This contradicts
the specified invariant that every generated HWORD carries odd parity. -/
theorem synthetic_header_parity_fails :
    (HWord.from_bytes synthSubsequentHeaderBytes =
        .ok (parseHWord synthSubsequentHeaderBytes) ∧
      (parseHWord synthSubsequentHeaderBytes).verify_parity = false) ∧
    (HWord.from_bytes (synthFirstHeaderBytes 1) =
        .ok (parseHWord (synthFirstHeaderBytes 1)) ∧
      (parseHWord (synthFirstHeaderBytes 1)).verify_parity = false) :=
  ⟨⟨HWord.from_bytes_eq _, by decide⟩, ⟨HWord.from_bytes_eq _, by decide⟩⟩

/-! ### C10 — lost-tail restart does not re-derive the frame mode -/

/-- C10: when a `FirstHeader` arrives in `CollectingPixels` (lost-tail
restart), the engine restarts the frame but leaves `current_mode` untouched —
regardless of the NUM_PIXELS_RW lane of that `FirstHeader` — so after the
restarted frame's 110 headers the expected pixel count is still the one
derived from the previous frame's `FirstHeader`. -/
theorem restart_keeps_previous_mode (e : FrameSyncEngine) (c : List Nat)
    (hdrs : List (List Nat)) (hcount pcount exp : Nat)
    (hs : e.state = .CollectingPixels hcount pcount exp)
    (hc : chunkControl c = 2)
    (hlen : hdrs.length = 109) (hh : ∀ h ∈ hdrs, chunkControl h = 3) :
    ∃ e', FrameSyncEngine.processAll e (c :: hdrs) = (e', []) ∧
      e'.current_mode = e.current_mode ∧
      e'.state = .CollectingPixels 110 0 e.current_mode.expected_pixel_count ∧
      e'.sync_errors = e.sync_errors + 1 := by
  obtain ⟨e1, hp1, hs1, hb1, hm1, hsync1, hf1⟩ :=
    step_collectingPixels_frameStart e c hcount pcount exp hs hc
  obtain ⟨e2, hp2, hs2, hb2, hm2, hsync2, hf2⟩ :=
    run_headers_to_pixels hdrs e1 hlen (fun h hm => Or.inr (hh h hm)) hs1
  refine ⟨e2, ?_, ?_, ?_, ?_⟩
  · rw [processAll_cons, hp1, hp2]; rfl
  · rw [hm2, hm1]
  · rw [hs2, hm1]
  · rw [hsync2, hsync1]

/-- Witness for C10: the restarting `FirstHeader` announces `N = 1`, yet the
restarted frame still expects 5 pixels (the previous frame's mode). -/
theorem restart_keeps_previous_mode_witness :
    (midPixelsEngine.state = .CollectingPixels 110 2 5 ∧
     chunkControl (firstHeaderChunk 1) = 2 ∧
     (List.replicate 109 subHeaderChunk).length = 109 ∧
     (∀ h ∈ List.replicate 109 subHeaderChunk, chunkControl h = 3)) ∧
    (∃ e', FrameSyncEngine.processAll midPixelsEngine
        (firstHeaderChunk 1 :: List.replicate 109 subHeaderChunk) = (e', []) ∧
      e'.current_mode = midPixelsEngine.current_mode ∧
      e'.state = .CollectingPixels 110 0 midPixelsEngine.current_mode.expected_pixel_count ∧
      e'.sync_errors = midPixelsEngine.sync_errors + 1) :=
  ⟨⟨rfl, by decide, by simp,
    fun h hm => by rw [List.eq_of_mem_replicate hm]; decide⟩,
   restart_keeps_previous_mode midPixelsEngine (firstHeaderChunk 1)
     (List.replicate 109 subHeaderChunk) 110 2 5 rfl (by decide) (by simp)
     (fun h hm => by rw [List.eq_of_mem_replicate hm]; decide)⟩

/-! ### C4 — codec round-trip: `serialize(parse(b)) = b` -/

theorem lor_eq_add_left {n : Nat} (a b : Nat) (hb : b < 2 ^ n) :
    (a * 2 ^ n) ||| b = a * 2 ^ n + b := by
  rw [Nat.mul_comm, ← Nat.mul_add_lt_is_or hb, Nat.mul_comm]

theorem lor_eq_add_right {n : Nat} (a b : Nat) (ha : a < 2 ^ n) :
    a ||| (b * 2 ^ n) = a + b * 2 ^ n := by
  rw [Nat.or_comm, Nat.mul_comm, ← Nat.mul_add_lt_is_or ha, Nat.mul_comm]
  omega

theorem word96_eq_sum (b0 b1 b2 b3 b4 b5 b6 b7 b8 b9 b10 b11 : Nat)
    (h1 : b1 < 256) (h2 : b2 < 256) (h3 : b3 < 256) (h4 : b4 < 256)
    (h5 : b5 < 256) (h6 : b6 < 256) (h7 : b7 < 256) (h8 : b8 < 256) (h9 : b9 < 256)
    (h10 : b10 < 256) (h11 : b11 < 256) :
    word96 [b0, b1, b2, b3, b4, b5, b6, b7, b8, b9, b10, b11] =
      b0 * 2 ^ 88 + b1 * 2 ^ 80 + b2 * 2 ^ 72 + b3 * 2 ^ 64 + b4 * 2 ^ 56 + b5 * 2 ^ 48 +
      b6 * 2 ^ 40 + b7 * 2 ^ 32 + b8 * 2 ^ 24 + b9 * 2 ^ 16 + b10 * 2 ^ 8 + b11 := by
  show b0 <<< 88 ||| b1 <<< 80 ||| b2 <<< 72 ||| b3 <<< 64 ||| b4 <<< 56 |||
      b5 <<< 48 ||| b6 <<< 40 ||| b7 <<< 32 ||| b8 <<< 24 ||| b9 <<< 16 |||
      b10 <<< 8 ||| b11 <<< 0 = _
  simp only [Nat.shiftLeft_eq, pow_zero, mul_one, Nat.or_assoc]
  rw [@lor_eq_add_left 8 b10 b11 (by omega)]
  rw [@lor_eq_add_left 16 b9 _ (by omega)]
  rw [@lor_eq_add_left 24 b8 _ (by omega)]
  rw [@lor_eq_add_left 32 b7 _ (by omega)]
  rw [@lor_eq_add_left 40 b6 _ (by omega)]
  rw [@lor_eq_add_left 48 b5 _ (by omega)]
  rw [@lor_eq_add_left 56 b4 _ (by omega)]
  rw [@lor_eq_add_left 64 b3 _ (by omega)]
  rw [@lor_eq_add_left 72 b2 _ (by omega)]
  rw [@lor_eq_add_left 80 b1 _ (by omega)]
  rw [@lor_eq_add_left 88 b0 _ (by omega)]
  ring

theorem lor_eq_add_pow (k a b m : Nat) (ha : a < 2 ^ k) (hm : m = 2 ^ k) :
    a ||| b * m = a + b * m := by
  subst hm
  exact lor_eq_add_right a b ha

theorem data92_recomb (d : Nat) (hd : d < 2 ^ 92) :
    HWord.data92OfParts ((List.range 11).map (fun i => (d >>> (i * 8)) &&& 0xFF))
      ((d >>> 88) &&& 0xF) = d := by
  have hr11 : List.range 11 = [0,1,2,3,4,5,6,7,8,9,10] := rfl
  unfold HWord.data92OfParts
  rw [hr11]
  simp only [List.map_cons, List.map_nil, List.foldl_cons, List.foldl_nil,
    List.getD_cons_zero, List.getD_cons_succ, Nat.zero_or, Nat.shiftLeft_eq,
    Nat.shiftRight_eq_div_pow, pow_zero, mul_one, Nat.div_one,
    show (255 : Nat) = 2 ^ 8 - 1 by norm_num, show (15 : Nat) = 2 ^ 4 - 1 by norm_num,
    Nat.and_pow_two_sub_one_eq_mod]
  norm_num
  rw [lor_eq_add_pow 8 _ _ 256]
  rw [lor_eq_add_pow 16 _ _ 65536]
  rw [lor_eq_add_pow 24 _ _ 16777216]
  rw [lor_eq_add_pow 32 _ _ 4294967296]
  rw [lor_eq_add_pow 40 _ _ 1099511627776]
  rw [lor_eq_add_pow 48 _ _ 281474976710656]
  rw [lor_eq_add_pow 56 _ _ 72057594037927936]
  rw [lor_eq_add_pow 64 _ _ 18446744073709551616]
  rw [lor_eq_add_pow 72 _ _ 4722366482869645213696]
  rw [lor_eq_add_pow 80 _ _ 1208925819614629174706176]
  rw [lor_eq_add_pow 88 _ _ 309485009821345068724781056]
  all_goals first | omega | norm_num

theorem lor_eq_add_pow_left (k a b m : Nat) (hb : b < 2 ^ k) (hm : m = 2 ^ k) :
    a * m ||| b = a * m + b := by
  subst hm
  exact lor_eq_add_left a b hb

theorem bytesOfWord96_sum (b0 b1 b2 b3 b4 b5 b6 b7 b8 b9 b10 b11 : Nat)
    (h0 : b0 < 256) (h1 : b1 < 256) (h2 : b2 < 256) (h3 : b3 < 256) (h4 : b4 < 256)
    (h5 : b5 < 256) (h6 : b6 < 256) (h7 : b7 < 256) (h8 : b8 < 256) (h9 : b9 < 256)
    (h10 : b10 < 256) (h11 : b11 < 256) :
    bytesOfWord96 (b0 * 2 ^ 88 + b1 * 2 ^ 80 + b2 * 2 ^ 72 + b3 * 2 ^ 64 + b4 * 2 ^ 56 + b5 * 2 ^ 48 + b6 * 2 ^ 40 + b7 * 2 ^ 32 + b8 * 2 ^ 24 + b9 * 2 ^ 16 + b10 * 2 ^ 8 + b11) = [b0, b1, b2, b3, b4, b5, b6, b7, b8, b9, b10, b11] := by
  have hr12 : List.range 12 = [0,1,2,3,4,5,6,7,8,9,10,11] := rfl
  unfold bytesOfWord96
  rw [hr12]
  simp only [List.map_cons, List.map_nil, Nat.shiftRight_eq_div_pow,
    show (255 : Nat) = 2 ^ 8 - 1 by norm_num, Nat.and_pow_two_sub_one_eq_mod]
  norm_num
  refine ⟨?_, ?_, ?_, ?_, ?_, ?_, ?_, ?_, ?_, ?_, ?_, ?_⟩ <;> omega

theorem word96_reassemble (w : Nat) (hw : w < 2 ^ 96) :
    ((w >>> 93) <<< 93) ||| (if ((w >>> 92) &&& 0x1) != 0 then 1 <<< 92 else 0) |||
      (w &&& ((1 <<< 92) - 1)) = w := by
  have hm : w &&& ((1 <<< 92) - 1) = w % 2 ^ 92 := by
    rw [show ((1 : Nat) <<< 92) - 1 = 2 ^ 92 - 1 by norm_num [Nat.shiftLeft_eq],
      Nat.and_pow_two_sub_one_eq_mod]
  rcases Nat.mod_two_eq_zero_or_one (w >>> 92) with ht | ht
  · have hcond : (((w >>> 92) &&& 0x1) != 0) = false := by
      simp [Nat.and_one_is_mod, ht]
    rw [hcond, if_neg (by simp), hm, Nat.or_zero, Nat.shiftLeft_eq,
      Nat.shiftRight_eq_div_pow] at *
    rw [lor_eq_add_pow_left 93 _ _ (2 ^ 93)]
    · omega
    · omega
    · rfl
  · have hcond : (((w >>> 92) &&& 0x1) != 0) = true := by
      simp [Nat.and_one_is_mod, ht]
    rw [hcond, if_pos rfl, hm, Nat.shiftLeft_eq, Nat.shiftLeft_eq,
      Nat.shiftRight_eq_div_pow] at *
    rw [lor_eq_add_pow_left 93 _ _ (2 ^ 93)]
    · rw [show w / 2 ^ 93 * 2 ^ 93 + 1 * 2 ^ 92 = (2 * (w / 2 ^ 93) + 1) * 2 ^ 92 by ring]
      rw [lor_eq_add_pow_left 92 _ _ (2 ^ 92)]
      · omega
      · omega
      · rfl
    · omega
    · rfl

theorem to_bytes_parseHWord (L : List Nat) :
    HWord.to_bytes (parseHWord L) =
      bytesOfWord96 (((chunkControl L &&& 7) <<< 93) |||
        (if ((word96 L >>> 92) &&& 0x1) != 0 then 1 <<< 92 else 0) |||
        HWord.data92OfParts
          ((List.range 11).map (fun i => ((word96 L &&& ((1 <<< 92) - 1)) >>> (i * 8)) &&& 0xFF))
          (((word96 L &&& ((1 <<< 92) - 1)) >>> 88) &&& 0xF)) := by
  simp only [HWord.to_bytes, parseHWord, ctrlOfNat_toNat]

/-- C4: for every 12-byte array (all eight 3-bit control codes are accepted),
`HWord::from_bytes` succeeds and `HWord::to_bytes` of the result reproduces
the input bytes exactly. -/
theorem hword_roundtrip (bytes : List Nat) (hlen : bytes.length = 12)
    (hb : ∀ b ∈ bytes, b < 256) :
    Except.map HWord.to_bytes (HWord.from_bytes bytes) = Except.ok bytes := by
  rcases bytes with _ | ⟨b0, bytes⟩; · simp at hlen
  rcases bytes with _ | ⟨b1, bytes⟩; · simp at hlen
  rcases bytes with _ | ⟨b2, bytes⟩; · simp at hlen
  rcases bytes with _ | ⟨b3, bytes⟩; · simp at hlen
  rcases bytes with _ | ⟨b4, bytes⟩; · simp at hlen
  rcases bytes with _ | ⟨b5, bytes⟩; · simp at hlen
  rcases bytes with _ | ⟨b6, bytes⟩; · simp at hlen
  rcases bytes with _ | ⟨b7, bytes⟩; · simp at hlen
  rcases bytes with _ | ⟨b8, bytes⟩; · simp at hlen
  rcases bytes with _ | ⟨b9, bytes⟩; · simp at hlen
  rcases bytes with _ | ⟨b10, bytes⟩; · simp at hlen
  rcases bytes with _ | ⟨b11, bytes⟩; · simp at hlen
  rcases bytes with _ | ⟨x, bytes⟩
  case _ =>
    have hb0 : b0 < 256 := hb _ (by simp)
    have hb1 : b1 < 256 := hb _ (by simp)
    have hb2 : b2 < 256 := hb _ (by simp)
    have hb3 : b3 < 256 := hb _ (by simp)
    have hb4 : b4 < 256 := hb _ (by simp)
    have hb5 : b5 < 256 := hb _ (by simp)
    have hb6 : b6 < 256 := hb _ (by simp)
    have hb7 : b7 < 256 := hb _ (by simp)
    have hb8 : b8 < 256 := hb _ (by simp)
    have hb9 : b9 < 256 := hb _ (by simp)
    have hb10 : b10 < 256 := hb _ (by simp)
    have hb11 : b11 < 256 := hb _ (by simp)
    have hw := word96_eq_sum b0 b1 b2 b3 b4 b5 b6 b7 b8 b9 b10 b11
      hb1 hb2 hb3 hb4 hb5 hb6 hb7 hb8 hb9 hb10 hb11
    have hwlt : word96 [b0, b1, b2, b3, b4, b5, b6, b7, b8, b9, b10, b11] < 2 ^ 96 := by rw [hw]; omega
    have hdlt : word96 [b0, b1, b2, b3, b4, b5, b6, b7, b8, b9, b10, b11] &&& ((1 <<< 92) - 1) < 2 ^ 92 := by
      rw [show ((1 : Nat) <<< 92) - 1 = 2 ^ 92 - 1 by norm_num [Nat.shiftLeft_eq],
        Nat.and_pow_two_sub_one_eq_mod]
      exact Nat.mod_lt _ (by norm_num)
    have hctrl93 : chunkControl [b0, b1, b2, b3, b4, b5, b6, b7, b8, b9, b10, b11] = word96 [b0, b1, b2, b3, b4, b5, b6, b7, b8, b9, b10, b11] >>> 93 := by
      show (b0 >>> 5) &&& 7 = _
      rw [show (7 : Nat) = 2 ^ 3 - 1 by norm_num, Nat.and_pow_two_sub_one_eq_mod,
        Nat.shiftRight_eq_div_pow, Nat.shiftRight_eq_div_pow, hw]
      omega
    rw [HWord.from_bytes_eq]
    show Except.ok (HWord.to_bytes (parseHWord [b0, b1, b2, b3, b4, b5, b6, b7, b8, b9, b10, b11])) = _
    rw [to_bytes_parseHWord, data92_recomb _ hdlt, chunkControl_and_seven, hctrl93,
      word96_reassemble _ hwlt, hw,
      bytesOfWord96_sum b0 b1 b2 b3 b4 b5 b6 b7 b8 b9 b10 b11
        hb0 hb1 hb2 hb3 hb4 hb5 hb6 hb7 hb8 hb9 hb10 hb11]
  case _ => simp at hlen

/-- Witness for C4 on a concrete 12-byte input. -/
theorem hword_roundtrip_witness :
    (([0x4F, 0x76, 0xB3, 0xBC, 0x12, 0x34, 0x56, 0x78, 0x9A, 0xBC, 0xDE, 0xF0] :
        List Nat).length = 12 ∧
     (∀ b ∈ ([0x4F, 0x76, 0xB3, 0xBC, 0x12, 0x34, 0x56, 0x78, 0x9A, 0xBC, 0xDE, 0xF0] :
        List Nat), b < 256)) ∧
    Except.map HWord.to_bytes
        (HWord.from_bytes [0x4F, 0x76, 0xB3, 0xBC, 0x12, 0x34, 0x56, 0x78, 0x9A, 0xBC, 0xDE, 0xF0]) =
      Except.ok [0x4F, 0x76, 0xB3, 0xBC, 0x12, 0x34, 0x56, 0x78, 0x9A, 0xBC, 0xDE, 0xF0] :=
  ⟨⟨rfl, by decide⟩,
   hword_roundtrip [0x4F, 0x76, 0xB3, 0xBC, 0x12, 0x34, 0x56, 0x78, 0x9A, 0xBC, 0xDE, 0xF0]
     rfl (by decide)⟩

/-! ### C8 — `Frame::from_bytes` fails exactly on non-multiple-of-12 lengths -/

theorem chunks12_length_le (n : Nat) : ∀ l : List Nat, l.length ≤ n →
    ∀ c ∈ Frame.chunks12 l, c.length = 12 := by
  induction n with
  | zero =>
    intro l hl c hc
    rw [Frame.chunks12] at hc
    rw [dif_pos (by omega)] at hc
    simp at hc
  | succ n ih =>
    intro l hl c hc
    rw [Frame.chunks12] at hc
    by_cases h12 : l.length < 12
    · rw [dif_pos h12] at hc
      simp at hc
    · rw [dif_neg h12] at hc
      rcases List.mem_cons.mp hc with rfl | hc
      · simp
        omega
      · exact ih (l.drop 12) (by simp; omega) c hc

theorem chunks12_length (l : List Nat) : ∀ c ∈ Frame.chunks12 l, c.length = 12 :=
  chunks12_length_le l.length l (le_refl _)

theorem fromBytesStep_ok (frame : Frame) (in_header : Bool) (h : HWord) :
    ∃ frame' in_header',
      Frame.fromBytesStep frame in_header h = .ok (frame', in_header') := by
  rcases h with ⟨cb, par, dat, rem⟩
  rcases cb <;> rcases in_header with _ | _ <;> exact ⟨_, _, rfl⟩

theorem fromBytesLoop_ok (chunks : List (List Nat)) :
    ∀ (frame : Frame) (in_header : Bool), (∀ c ∈ chunks, c.length = 12) →
    ∃ f, Frame.fromBytesLoop frame in_header chunks = .ok f := by
  induction chunks with
  | nil => intro frame in_header _; exact ⟨frame, rfl⟩
  | cons c rest ih =>
    intro frame in_header hlen
    obtain ⟨frame', in_header', hstep⟩ := fromBytesStep_ok frame in_header (parseHWord c)
    obtain ⟨f, hf⟩ := ih frame' in_header' (fun x hx => hlen x (by simp [hx]))
    refine ⟨f, ?_⟩
    have hc12 : c.length = 12 := hlen c (by simp)
    simp only [Frame.fromBytesLoop, hc12]
    rw [if_neg (show ¬(12 : Nat) ≠ 12 by omega)]
    simp only [HWord.from_bytes_eq, hstep]
    exact hf

/-- C8: `Frame::from_bytes` returns an error exactly when the byte length is
not a multiple of 12, and that error is `InvalidFileFormat`; on every
multiple-of-12 input it returns a frame (the `InvalidControlBits` and
`InvalidFrame` branches are unreachable: the control tag set is total over 3
bits and HWORDs are routed by control type before insertion). -/
theorem frame_from_bytes_error_iff (frame_id : Nat) (data : List Nat)
    (hb : ∀ b ∈ data, b < 256) :
    ((∃ e, Frame.from_bytes frame_id data = .error e) ↔ data.length % 12 ≠ 0) ∧
    (data.length % 12 ≠ 0 →
      Frame.from_bytes frame_id data = .error (.InvalidFileFormat
        ("File size " ++ toString data.length ++
          " is not a multiple of HWORD size (12 bytes)"))) ∧
    (data.length % 12 = 0 → ∃ f, Frame.from_bytes frame_id data = .ok f) := by
  by_cases hmod : data.length % 12 = 0
  · obtain ⟨f, hf⟩ :=
      fromBytesLoop_ok (Frame.chunks12 data) (Frame.new frame_id) false (chunks12_length data)
    have hok : ∃ g, Frame.from_bytes frame_id data = .ok g := by
      simp only [Frame.from_bytes, HWORD_SIZE_BYTES]
      rw [if_neg (by omega)]
      simp only [hf, FrameHeader.extract_registers]
      exact ⟨_, rfl⟩
    obtain ⟨g, hg⟩ := hok
    refine ⟨⟨fun he => ?_, fun hne => absurd hmod hne⟩, fun hne => absurd hmod hne,
      fun _ => ⟨g, hg⟩⟩
    obtain ⟨e, he⟩ := he
    rw [hg] at he
    exact Except.noConfusion he
  · have herr : Frame.from_bytes frame_id data = .error (.InvalidFileFormat
        ("File size " ++ toString data.length ++
          " is not a multiple of HWORD size (12 bytes)")) := by
      simp only [Frame.from_bytes, HWORD_SIZE_BYTES]
      rw [if_pos (by omega)]
    exact ⟨⟨fun _ => hmod, fun _ => ⟨_, herr⟩⟩, fun _ => herr, fun h => absurd h hmod⟩

/-- Witness for C8 (length 13: error case; length 24: success case). -/
theorem frame_from_bytes_error_iff_witness :
    ((∀ b ∈ (List.replicate 13 0 : List Nat), b < 256) ∧
     (∀ b ∈ (List.replicate 24 0 : List Nat), b < 256)) ∧
    (((∃ e, Frame.from_bytes 0 (List.replicate 13 0) = .error e) ↔
        (List.replicate 13 0 : List Nat).length % 12 ≠ 0) ∧
      ((List.replicate 13 0 : List Nat).length % 12 ≠ 0 →
        Frame.from_bytes 0 (List.replicate 13 0) = .error (.InvalidFileFormat
          ("File size " ++ toString (List.replicate 13 0 : List Nat).length ++
            " is not a multiple of HWORD size (12 bytes)"))) ∧
      ((List.replicate 13 0 : List Nat).length % 12 = 0 →
        ∃ f, Frame.from_bytes 0 (List.replicate 13 0) = .ok f)) ∧
    (((∃ e, Frame.from_bytes 0 (List.replicate 24 0) = .error e) ↔
        (List.replicate 24 0 : List Nat).length % 12 ≠ 0) ∧
      ((List.replicate 24 0 : List Nat).length % 12 ≠ 0 →
        Frame.from_bytes 0 (List.replicate 24 0) = .error (.InvalidFileFormat
          ("File size " ++ toString (List.replicate 24 0 : List Nat).length ++
            " is not a multiple of HWORD size (12 bytes)"))) ∧
      ((List.replicate 24 0 : List Nat).length % 12 = 0 →
        ∃ f, Frame.from_bytes 0 (List.replicate 24 0) = .ok f)) :=
  ⟨⟨by decide, by decide⟩,
   frame_from_bytes_error_iff 0 (List.replicate 13 0) (by decide),
   frame_from_bytes_error_iff 0 (List.replicate 24 0) (by decide)⟩

theorem extract_eq_decodePixel (h : HWord) (wl : FieldWhitelist)
    (hp : h.control_bits.is_pixel = true) :
    extract_coordinates_from_hword h wl = some (decodePixel h wl) := by
  unfold decodePixel extract_coordinates_from_hword
  simp [hp]

theorem loop_small (wl : FieldWhitelist) (k : Nat) (hk : k ≤ 1) :
    ∀ (pixels : List HWord) (i : Nat), (∀ h ∈ pixels, h.control_bits.is_pixel = true) →
    PixelData.extractCoordinatesLoop wl k pixels i =
      pixels.map (fun h => decodePixel h wl) := by
  intro pixels
  induction pixels with
  | nil => intro i _; rfl
  | cons h t ih =>
    intro i hp
    rw [PixelData.extractCoordinatesLoop]
    rw [if_neg (by omega)]
    rw [extract_eq_decodePixel h wl (hp h (by simp))]
    simp only [List.map_cons]
    rw [ih (i + 1) (fun x hx => hp x (by simp [hx]))]

theorem loop_get_aux (wl : FieldWhitelist) (k : Nat) (hk : 2 ≤ k) :
    ∀ (pixels : List HWord) (i n : Nat), (∀ h ∈ pixels, h.control_bits.is_pixel = true) →
    (PixelData.extractCoordinatesLoop wl k pixels i).get? n =
      (pixels.get? ((k - i % k) % k + n * k)).map (fun h => decodePixel h wl) := by
  intro pixels
  induction pixels with
  | nil => intro i n _; simp [PixelData.extractCoordinatesLoop]
  | cons h t ih =>
    intro i n hp
    have hrk : i % k < k := Nat.mod_lt _ (by omega)
    have h1k : (1 : Nat) % k = 1 := Nat.mod_eq_of_lt (by omega)
    have hsucc : (i + 1) % k = (i % k + 1) % k := by
      conv_lhs => rw [Nat.add_mod, h1k]
    by_cases hs : i % k = 0
    · have hoff : (k - i % k) % k = 0 := by rw [hs]; simp
      have hstep : (i + 1) % k = 1 := by
        rw [hsucc, hs]
        exact Nat.mod_eq_of_lt (by omega)
      have hoff' : (k - (i + 1) % k) % k = k - 1 := by
        rw [hstep]
        exact Nat.mod_eq_of_lt (by omega)
      rw [PixelData.extractCoordinatesLoop]
      rw [if_neg (by omega)]
      rw [extract_eq_decodePixel h wl (hp h (by simp))]
      rcases n with _ | n
      · simp [hoff]
      · rw [List.get?_cons_succ]
        rw [ih (i + 1) n (fun x hx => hp x (by simp [hx])), hoff', hoff]
        rw [show (n + 1) * k = (k - 1 + n * k) + 1 by rw [Nat.succ_mul]; omega]
        rw [Nat.zero_add, List.get?_cons_succ]
    · have hoff : (k - i % k) % k = k - i % k := Nat.mod_eq_of_lt (by omega)
      have hoff' : (k - (i + 1) % k) % k = k - i % k - 1 := by
        rw [hsucc]
        rcases Nat.lt_or_ge (i % k + 1) k with hlast | hlast
        · rw [Nat.mod_eq_of_lt hlast, Nat.mod_eq_of_lt (by omega)]
          omega
        · have hik : i % k + 1 = k := by omega
          rw [hik, Nat.mod_self, Nat.sub_zero, Nat.mod_self]
          omega
      rw [PixelData.extractCoordinatesLoop]
      rw [if_pos (by exact ⟨by omega, hs⟩)]
      rw [ih (i + 1) n (fun x hx => hp x (by simp [hx])), hoff', hoff]
      rw [show k - i % k + n * k = (k - i % k - 1 + n * k) + 1 by omega]
      rw [List.get?_cons_succ]

theorem loop_length (wl : FieldWhitelist) (k : Nat) (hk : 2 ≤ k)
    (pixels : List HWord) (hp : ∀ h ∈ pixels, h.control_bits.is_pixel = true) :
    (PixelData.extractCoordinatesLoop wl k pixels 0).length =
      (pixels.length + k - 1) / k := by
  have hget : ∀ n, (PixelData.extractCoordinatesLoop wl k pixels 0).get? n =
      (pixels.get? (n * k)).map (fun h => decodePixel h wl) := by
    intro n
    have h0 : (k - 0 % k) % k = 0 := by simp
    have hx := loop_get_aux wl k hk pixels 0 n hp
    rw [h0, Nat.zero_add] at hx
    exact hx
  have hdm := Nat.div_add_mod (pixels.length + k - 1) k
  rw [Nat.mul_comm] at hdm
  have hr : (pixels.length + k - 1) % k < k := Nat.mod_lt _ (by omega)
  rcases Nat.eq_zero_or_pos pixels.length with hL | hL
  · have hq : (pixels.length + k - 1) / k = 0 := Nat.div_eq_of_lt (by omega)
    rw [hq]
    have hx := hget 0
    rcases hout : PixelData.extractCoordinatesLoop wl k pixels 0 with _ | ⟨p, rest⟩
    · rfl
    · rw [hout] at hx
      simp only [List.get?_cons_zero, Nat.zero_mul] at hx
      rw [List.get?_eq_none.mpr (by omega)] at hx
      simp at hx
  · have hnone : (PixelData.extractCoordinatesLoop wl k pixels 0).get?
        ((pixels.length + k - 1) / k) = none := by
      rw [hget, List.get?_eq_none.mpr (by omega)]
      rfl
    have hle : (PixelData.extractCoordinatesLoop wl k pixels 0).length ≤
        (pixels.length + k - 1) / k := List.get?_eq_none.mp hnone
    have hsome : (pixels.length + k - 1) / k - 1 <
        (PixelData.extractCoordinatesLoop wl k pixels 0).length := by
      by_contra hcon
      push_neg at hcon
      have hn := hget ((pixels.length + k - 1) / k - 1)
      rw [List.get?_eq_none.mpr hcon] at hn
      have hidx : ((pixels.length + k - 1) / k - 1) * k < pixels.length := by
        rw [Nat.sub_mul, Nat.one_mul]
        omega
      rw [List.get?_eq_get hidx] at hn
      simp at hn
    have hq1 : 1 ≤ (pixels.length + k - 1) / k := by omega
    omega

/-- C6: `Frame::data` with decimation `k` keeps exactly `ceil(L/k)` points for
`k >= 1`, its `i`-th output point being decoded from the `i*k`-th source
pixel; `k = 0` and `k = 1` both keep all `L` points (pure selection, no
averaging). -/
theorem frame_data_decimation (frame_id : Nat) (header : FrameHeader) (ft : String)
    (pixels : List HWord) (k : Nat)
    (hp : ∀ h ∈ pixels, h.control_bits.is_pixel = true) :
    (1 ≤ k →
      (Frame.data ⟨frame_id, header, ⟨pixels⟩, ft⟩ (some k) none).points.length =
        (pixels.length + k - 1) / k ∧
      (∀ i : Nat, (Frame.data ⟨frame_id, header, ⟨pixels⟩, ft⟩ (some k) none).points.get? i =
        (pixels.get? (i * k)).map (fun h => decodePixel h FieldWhitelist.all))) ∧
    (k = 0 →
      (Frame.data ⟨frame_id, header, ⟨pixels⟩, ft⟩ (some k) none).points =
        pixels.map (fun h => decodePixel h FieldWhitelist.all)) ∧
    (k = 1 →
      (Frame.data ⟨frame_id, header, ⟨pixels⟩, ft⟩ (some k) none).points =
        pixels.map (fun h => decodePixel h FieldWhitelist.all)) := by
  have hdata : (Frame.data ⟨frame_id, header, ⟨pixels⟩, ft⟩ (some k) none).points =
      PixelData.extractCoordinatesLoop FieldWhitelist.all k pixels 0 := rfl
  refine ⟨fun hk1 => ?_, fun hk0 => ?_, fun hk1 => ?_⟩
  · rcases Nat.lt_or_ge k 2 with hk2 | hk2
    · have hk : k = 1 := by omega
      subst hk
      rw [hdata, loop_small FieldWhitelist.all 1 (by omega) pixels 0 hp]
      constructor
      · simp
      · intro i
        rw [List.get?_map, Nat.mul_one]
    · rw [hdata]
      refine ⟨loop_length FieldWhitelist.all k hk2 pixels hp, fun i => ?_⟩
      have h0 : (k - 0 % k) % k = 0 := by simp
      have hx := loop_get_aux FieldWhitelist.all k hk2 pixels 0 i hp
      rw [h0, Nat.zero_add] at hx
      exact hx
  · subst hk0
    rw [hdata, loop_small FieldWhitelist.all 0 (by omega) pixels 0 hp]
  · subst hk1
    rw [hdata, loop_small FieldWhitelist.all 1 (by omega) pixels 0 hp]

/-- Witness for C6 at `k = 2` on a 3-pixel frame. -/
theorem frame_data_decimation_witness :
    (∀ h ∈ witnessPixels, h.control_bits.is_pixel = true) ∧
    ((1 ≤ 2 →
      (Frame.data ⟨0, FrameHeader.new, ⟨witnessPixels⟩, "point_cloud"⟩
          (some 2) none).points.length = (witnessPixels.length + 2 - 1) / 2 ∧
      (∀ i : Nat, (Frame.data ⟨0, FrameHeader.new, ⟨witnessPixels⟩, "point_cloud"⟩
          (some 2) none).points.get? i =
        (witnessPixels.get? (i * 2)).map (fun h => decodePixel h FieldWhitelist.all))) ∧
    ((2 : Nat) = 0 →
      (Frame.data ⟨0, FrameHeader.new, ⟨witnessPixels⟩, "point_cloud"⟩ (some 2) none).points =
        witnessPixels.map (fun h => decodePixel h FieldWhitelist.all)) ∧
    ((2 : Nat) = 1 →
      (Frame.data ⟨0, FrameHeader.new, ⟨witnessPixels⟩, "point_cloud"⟩ (some 2) none).points =
        witnessPixels.map (fun h => decodePixel h FieldWhitelist.all))) :=
  ⟨by decide, frame_data_decimation 0 FrameHeader.new "point_cloud" witnessPixels 2 (by decide)⟩

/-! ### C7 — sign extension of the pixel coordinate lanes -/

/-- The signed value the decoder produces from a 19-bit two's-complement lane. -/
theorem signExtend19 (r : Nat) (v : Int)
    (hr : (r : Int) = v % 2 ^ 19) (hv1 : -2 ^ 18 ≤ v) (hv2 : v < 2 ^ 18) :
    u32_as_i32 (if r &&& 0x40000 ≠ 0 then r ||| 0xFFF80000 else r) = v := by
  have hrlt : r < 2 ^ 19 := by omega
  by_cases hneg : v < 0
  · have hge : 2 ^ 18 ≤ r := by omega
    have hbit : r &&& 0x40000 = 0x40000 := by
      rw [show (0x40000 : Nat) = 2 ^ 18 from rfl, Nat.and_two_pow]
      have ht : r.testBit 18 = true := by
        rw [Nat.testBit_to_div_mod]
        simp only [decide_eq_true_eq]
        omega
      rw [ht]
      simp
    rw [if_pos (by rw [hbit]; norm_num)]
    rw [show (0xFFF80000 : Nat) = 8191 * 2 ^ 19 from by norm_num]
    rw [lor_eq_add_pow 19 r 8191 (2 ^ 19) hrlt rfl]
    unfold u32_as_i32
    rw [if_neg (by omega)]
    omega
  · have hlt : r < 2 ^ 18 := by omega
    have hbit : r &&& 0x40000 = 0 := by
      rw [show (0x40000 : Nat) = 2 ^ 18 from rfl, Nat.and_two_pow]
      rw [Nat.testBit_lt_two_pow hlt]
      simp
    rw [if_neg (by rw [hbit]; norm_num)]
    unfold u32_as_i32
    rw [if_pos (by omega)]
    omega

/-- The signed value the decoder produces from a 22-bit two's-complement lane. -/
theorem signExtend22 (r : Nat) (v : Int)
    (hr : (r : Int) = v % 2 ^ 22) (hv1 : -2 ^ 21 ≤ v) (hv2 : v < 2 ^ 21) :
    u32_as_i32 (if r &&& 0x200000 ≠ 0 then r ||| 0xFFC00000 else r) = v := by
  have hrlt : r < 2 ^ 22 := by omega
  by_cases hneg : v < 0
  · have hge : 2 ^ 21 ≤ r := by omega
    have hbit : r &&& 0x200000 = 0x200000 := by
      rw [show (0x200000 : Nat) = 2 ^ 21 from rfl, Nat.and_two_pow]
      have ht : r.testBit 21 = true := by
        rw [Nat.testBit_to_div_mod]
        simp only [decide_eq_true_eq]
        omega
      rw [ht]
      simp
    rw [if_pos (by rw [hbit]; norm_num)]
    rw [show (0xFFC00000 : Nat) = 1023 * 2 ^ 22 from by norm_num]
    rw [lor_eq_add_pow 22 r 1023 (2 ^ 22) hrlt rfl]
    unfold u32_as_i32
    rw [if_neg (by omega)]
    omega
  · have hlt : r < 2 ^ 21 := by omega
    have hbit : r &&& 0x200000 = 0 := by
      rw [show (0x200000 : Nat) = 2 ^ 21 from rfl, Nat.and_two_pow]
      rw [Nat.testBit_lt_two_pow hlt]
      simp
    rw [if_neg (by rw [hbit]; norm_num)]
    unfold u32_as_i32
    rw [if_pos (by omega)]
    omega

/-- C7: for a pixel HWORD whose X lane (data bits 23:0, low 19 bits) encodes
the 19-bit two's-complement integer `vx` in `[-2^18, 2^18)`, the decoded `x`
field equals `vx / 1024` exactly (hence within 1 ULP); analogously for the Y
lane (bits 47:24, 19 bits) and the Z lane (bits 71:48, 22 bits sign-extended
from bit 21), both divided by 1024.  The `f64` arithmetic is exact on these
values, so the `ℚ` model coincides with the double-precision result. -/
theorem pixel_lane_sign_extension (h : HWord) (vx vy vz : Int)
    (hp : h.control_bits.is_pixel = true)
    (hx1 : -2 ^ 18 ≤ vx) (hx2 : vx < 2 ^ 18)
    (hy1 : -2 ^ 18 ≤ vy) (hy2 : vy < 2 ^ 18)
    (hz1 : -2 ^ 21 ≤ vz) (hz2 : vz < 2 ^ 21)
    (hxe : ((h.data_as_u128 &&& 0x7FFFF : Nat) : Int) = vx % 2 ^ 19)
    (hye : (((h.data_as_u128 >>> 24) &&& 0x7FFFF : Nat) : Int) = vy % 2 ^ 19)
    (hze : (((h.data_as_u128 >>> 48) &&& 0x3FFFFF : Nat) : Int) = vz % 2 ^ 22) :
    ∃ p, extract_coordinates_from_hword h FieldWhitelist.all = some p ∧
      p.x = some ((vx : ℚ) / 1024) ∧ p.y = some ((vy : ℚ) / 1024) ∧
      p.z = some ((vz : ℚ) / 1024) := by
  have hX := signExtend19 _ vx hxe hx1 hx2
  have hY := signExtend19 _ vy hye hy1 hy2
  have hZ := signExtend22 _ vz hze hz1 hz2
  refine ⟨decodePixel h FieldWhitelist.all, extract_eq_decodePixel h _ hp, ?_, ?_, ?_⟩
  all_goals
    unfold decodePixel extract_coordinates_from_hword
    rw [if_neg (by simp [hp])]
    simp only [Option.getD_some,
      if_pos (show FieldWhitelist.all.includes FieldType.X = true from rfl),
      if_pos (show FieldWhitelist.all.includes FieldType.Y = true from rfl),
      if_pos (show FieldWhitelist.all.includes FieldType.Z = true from rfl)]
  · rw [hX]; rfl
  · rw [hY]; rfl
  · rw [hZ]; rfl

/-- Witness for C7 at `vx = -1024`, `vy = 2048`, `vz = -3072`. -/
theorem pixel_lane_sign_extension_witness :
    (witnessPixelHword.control_bits.is_pixel = true ∧
     (-2 ^ 18 ≤ (-1024 : Int)) ∧ ((-1024 : Int) < 2 ^ 18) ∧
     (-2 ^ 18 ≤ (2048 : Int)) ∧ ((2048 : Int) < 2 ^ 18) ∧
     (-2 ^ 21 ≤ (-3072 : Int)) ∧ ((-3072 : Int) < 2 ^ 21) ∧
     ((witnessPixelHword.data_as_u128 &&& 0x7FFFF : Nat) : Int) = (-1024 : Int) % 2 ^ 19 ∧
     (((witnessPixelHword.data_as_u128 >>> 24) &&& 0x7FFFF : Nat) : Int) =
       (2048 : Int) % 2 ^ 19 ∧
     (((witnessPixelHword.data_as_u128 >>> 48) &&& 0x3FFFFF : Nat) : Int) =
       (-3072 : Int) % 2 ^ 22) ∧
    (∃ p, extract_coordinates_from_hword witnessPixelHword FieldWhitelist.all = some p ∧
      p.x = some (((-1024 : Int) : ℚ) / 1024) ∧
      p.y = some (((2048 : Int) : ℚ) / 1024) ∧
      p.z = some (((-3072 : Int) : ℚ) / 1024)) :=
  ⟨⟨by decide, by decide, by decide, by decide, by decide, by decide, by decide,
    by decide, by decide, by decide⟩,
   pixel_lane_sign_extension witnessPixelHword (-1024) 2048 (-3072) (by decide)
     (by decide) (by decide) (by decide) (by decide) (by decide) (by decide)
     (by decide) (by decide) (by decide)⟩

end RustComponents

